import Mathlib

/-!
Verification of the weather/air-quality report pipeline (src/index.ts).

The program is a TypeScript script that fetches weather and air-quality
time series, buckets hourly samples into per-date morning/afternoon
windows, aggregates them (arithmetic mean, representative weather code,
daily min/max passthrough), grades and formats the values, and composes a
fixed multi-line text report.

Shallow embedding conventions used throughout this file:
* JavaScript numbers are modelled as exact rationals (ℚ); `null` and
  non-finite entries of the `number | null` arrays are modelled as
  `Option ℚ` with `none` for the absent/invalid case, matching the
  source's `isFiniteNumber` guard.
* JavaScript `Record<string, T>` objects are modelled as insertion-ordered
  association lists `List (String × T)`; property reads are `lookupAL`,
  property writes are `updateAL` (overwrite in place, append if new),
  matching JS string-keyed object semantics.
* Functions that `throw` are modelled with `Except String`.
* The calendar arithmetic of the JavaScript `Date` UTC APIs
  (`Date.UTC`, `getUTCDay`, `setUTCDate`, `getUTCFullYear/Month/Date`)
  is modelled by explicit proleptic-Gregorian day arithmetic
  (`daysFromCivil` / `civilFromDays`), with a `Date` value represented by
  its day number relative to the epoch 1970-01-01.  `Date.UTC`'s legacy
  mapping of two-digit years (0..99 become 1900..1999) and its
  month/day-of-month rollover are modelled explicitly in `dateUTC`.
-/

/-! ## Calendar arithmetic (model of the JavaScript Date UTC calendar) -/

/-- Day number (days since 1970-01-01) of a civil proleptic-Gregorian date,
with months counted 1..12.  This models the day arithmetic underlying the
JavaScript `Date` UTC accessors.  Out-of-range day-of-month values simply
offset the result, matching `MakeDay` semantics. -/
def daysFromCivil (y m d : ℤ) : ℤ :=
  let y2 := if m ≤ 2 then y - 1 else y
  let era := y2 / 400
  let yoe := y2 - 400 * era
  let mp := if 2 < m then m - 3 else m + 9
  let doy := (153 * mp + 2) / 5 + d - 1
  let doe := 146097 * (yoe / 100) / 4 + 1461 * (yoe % 100) / 4 + doy
  146097 * era + doe - 719468

/-- Civil proleptic-Gregorian date `(year, month, day)` of a day number,
inverse of `daysFromCivil`.  This models `getUTCFullYear`, `getUTCMonth + 1`
and `getUTCDate` of a `Date` holding that day. -/
def civilFromDays (w : ℤ) : ℤ × ℤ × ℤ :=
  let z := w + 719468
  let era := z / 146097
  let doe := z - 146097 * era
  let coc := (4 * doe + 3) / 146097
  let doc := doe - 146097 * coc / 4
  let yoc := (4 * doc + 3) / 1461
  let doy := doc - 1461 * yoc / 4
  let yoe := 100 * coc + yoc
  let y := yoe + 400 * era
  let mp := (5 * doy + 2) / 153
  let d := doy - (153 * mp + 2) / 5 + 1
  let m := if mp < 10 then mp + 3 else mp - 9
  (if m ≤ 2 then y + 1 else y, m, d)

/-- Model of `Date.UTC(y, monthIndex, day) `, as a day number.  Implements
the ECMAScript `MakeDay` normalisation (month rollover, day-of-month
offset) and the legacy two-digit-year mapping (years 0..99 mean
1900..1999). -/
def dateUTC (y monthIndex dayOfMonth : ℤ) : ℤ :=
  let yAdj := if 0 ≤ y ∧ y ≤ 99 then y + 1900 else y
  let ym := 12 * yAdj + monthIndex
  daysFromCivil (ym / 12) (ym % 12 + 1) 1 + (dayOfMonth - 1)

theorem daysFromCivil_day_shift (y m d : ℤ) :
    daysFromCivil y m 1 + (d - 1) = daysFromCivil y m d := by
  simp only [daysFromCivil]
  by_cases hm : m ≤ 2 <;> simp only [hm, if_true, if_false] <;> ring

theorem civilFromDays_roundtrip (w : ℤ) :
    daysFromCivil (civilFromDays w).1 (civilFromDays w).2.1 (civilFromDays w).2.2 = w := by
  set z := w + 719468 with hz
  set era := z / 146097 with hera
  set doe := z - 146097 * era with hdoe
  have hdoeb : 0 ≤ doe ∧ doe ≤ 146096 := by omega
  set coc := (4 * doe + 3) / 146097 with hcoc
  have hcocb : 0 ≤ coc ∧ coc ≤ 3 := by omega
  set doc := doe - 146097 * coc / 4 with hdoc
  have hdocb : 0 ≤ doc ∧ doc ≤ 36524 := by omega
  set yoc := (4 * doc + 3) / 1461 with hyoc
  have hyocb : 0 ≤ yoc ∧ yoc ≤ 99 := by omega
  set doy := doc - 1461 * yoc / 4 with hdoy
  have hdoyb : 0 ≤ doy ∧ doy ≤ 365 := by omega
  set mp := (5 * doy + 2) / 153 with hmp
  have hmpb : 0 ≤ mp ∧ mp ≤ 11 := by omega
  set d := doy - (153 * mp + 2) / 5 + 1 with hd
  have hcfd : civilFromDays w =
      (if (if mp < 10 then mp + 3 else mp - 9) ≤ 2 then 100 * coc + yoc + 400 * era + 1
        else 100 * coc + yoc + 400 * era,
        if mp < 10 then mp + 3 else mp - 9, d) := by
    simp only [civilFromDays]
    try rw [← hz]
    try rw [← hera]
    try rw [← hdoe]
    try rw [← hcoc]
    try rw [← hdoc]
    try rw [← hyoc]
    try rw [← hdoy]
    try rw [← hmp]
    try rw [← hd]
    try rfl
  rw [hcfd]
  by_cases hsplit : mp < 10
  · have hm3 : ¬ (mp + 3 ≤ 2) := by omega
    simp only [hsplit, if_true, hm3, if_false]
    have h2m : 2 < mp + 3 := by omega
    simp only [daysFromCivil, hm3, if_false, h2m, if_true]
    have hyd : (100 * coc + yoc + 400 * era) / 400 = era := by omega
    rw [hyd]
    have h1 : mp + 3 - 3 = mp := by ring
    rw [h1]
    have h2 : 100 * coc + yoc + 400 * era - 400 * era = 100 * coc + yoc := by ring
    rw [h2]
    have h3 : (100 * coc + yoc) / 100 = coc := by omega
    have h4 : (100 * coc + yoc) % 100 = yoc := by omega
    rw [h3, h4]
    omega
  · have hm2 : mp - 9 ≤ 2 := by omega
    simp only [hsplit, if_false, hm2, if_true]
    have h2m : ¬ (2 < mp - 9) := by omega
    simp only [daysFromCivil, hm2, if_true, h2m, if_false]
    have hy1 : 100 * coc + yoc + 400 * era + 1 - 1 = 100 * coc + yoc + 400 * era := by ring
    rw [hy1]
    have hyd : (100 * coc + yoc + 400 * era) / 400 = era := by omega
    rw [hyd]
    have h1 : mp - 9 + 9 = mp := by ring
    rw [h1]
    have h2 : 100 * coc + yoc + 400 * era - 400 * era = 100 * coc + yoc := by ring
    rw [h2]
    have h3 : (100 * coc + yoc) / 100 = coc := by omega
    have h4 : (100 * coc + yoc) % 100 = yoc := by omega
    rw [h3, h4]
    omega

theorem civilFromDays_bounds (w : ℤ) (h1 : -354285 ≤ w) (h2 : w ≤ 2932896) :
    1000 ≤ (civilFromDays w).1 ∧ (civilFromDays w).1 ≤ 9999 ∧
    1 ≤ (civilFromDays w).2.1 ∧ (civilFromDays w).2.1 ≤ 12 ∧
    1 ≤ (civilFromDays w).2.2 ∧ (civilFromDays w).2.2 ≤ 31 := by
  set z := w + 719468 with hz
  set era := z / 146097 with hera
  set doe := z - 146097 * era with hdoe
  have hdoeb : 0 ≤ doe ∧ doe ≤ 146096 := by omega
  set coc := (4 * doe + 3) / 146097 with hcoc
  have hcocb : 0 ≤ coc ∧ coc ≤ 3 := by omega
  set doc := doe - 146097 * coc / 4 with hdoc
  have hdocb : 0 ≤ doc ∧ doc ≤ 36524 := by omega
  set yoc := (4 * doc + 3) / 1461 with hyoc
  have hyocb : 0 ≤ yoc ∧ yoc ≤ 99 := by omega
  set doy := doc - 1461 * yoc / 4 with hdoy
  have hdoyb : 0 ≤ doy ∧ doy ≤ 365 := by omega
  set mp := (5 * doy + 2) / 153 with hmp
  have hmpb : 0 ≤ mp ∧ mp ≤ 11 := by omega
  set d := doy - (153 * mp + 2) / 5 + 1 with hd
  have hdb : 1 ≤ d ∧ d ≤ 31 := by omega
  have hcfd : civilFromDays w =
      (if (if mp < 10 then mp + 3 else mp - 9) ≤ 2 then 100 * coc + yoc + 400 * era + 1
        else 100 * coc + yoc + 400 * era,
        if mp < 10 then mp + 3 else mp - 9, d) := by
    simp only [civilFromDays]
    try rw [← hz]
    try rw [← hera]
    try rw [← hdoe]
    try rw [← hcoc]
    try rw [← hdoc]
    try rw [← hyoc]
    try rw [← hdoy]
    try rw [← hmp]
    try rw [← hd]
    try rfl
  rw [hcfd]
  by_cases hsplit : mp < 10
  · have hm3 : ¬ (mp + 3 ≤ 2) := by omega
    simp only [hsplit, if_true, hm3, if_false]
    refine ⟨by omega, by omega, by omega, by omega, by omega, by omega⟩
  · have hm2 : mp - 9 ≤ 2 := by omega
    simp only [hsplit, if_false, hm2, if_true]
    refine ⟨by omega, by omega, by omega, by omega, by omega, by omega⟩

/-! ## Decimal string rendering (model of JS `String(n)` and `padStart`) -/

/-- Is `c` an ASCII digit (the regex class `\d`). -/
def isDig (c : Char) : Bool := 48 ≤ c.toNat && c.toNat ≤ 57

/-- Numeric value of an ASCII digit character. -/
def digitVal (c : Char) : ℤ := (c.toNat : ℤ) - 48

/-- Fuel-driven most-significant-first decimal digit expansion. -/
def natDecCharsAux : ℕ → ℕ → List Char
  | 0, _ => []
  | fuel + 1, n => if n = 0 then [] else natDecCharsAux fuel (n / 10) ++ [Nat.digitChar (n % 10)]

/-- Decimal digit characters of a natural number, as printed by JS `String(n)`. -/
def natDecChars (n : ℕ) : List Char := if n = 0 then ['0'] else natDecCharsAux (n + 1) n

/-- Decimal character rendering of an integer, as printed by JS `String(n)`. -/
def intDecChars (n : ℤ) : List Char :=
  if n < 0 then '-' :: natDecChars n.natAbs else natDecChars n.natAbs

/-- JS `String(n)` for an integer value. -/
def intToDecString (n : ℤ) : String := String.mk (intDecChars n)

/-- JS `str.padStart(2, "0")` on a character list. -/
def pad2 (cs : List Char) : List Char := if cs.length < 2 then '0' :: cs else cs

theorem natDecCharsAux_zero (fuel : ℕ) : natDecCharsAux fuel 0 = [] := by
  cases fuel <;> simp [natDecCharsAux]

theorem natDecCharsAux_one_digit (fuel n : ℕ) (h1 : 1 ≤ n) (h2 : n ≤ 9) :
    natDecCharsAux (fuel + 1) n = [Nat.digitChar n] := by
  have hn : n ≠ 0 := by omega
  have hdiv : n / 10 = 0 := by omega
  have hmod : n % 10 = n := by omega
  simp [natDecCharsAux, hn, hdiv, hmod, natDecCharsAux_zero]

theorem natDecCharsAux_succ (f k : ℕ) :
    natDecCharsAux (f + 1) k =
      if k = 0 then [] else natDecCharsAux f (k / 10) ++ [Nat.digitChar (k % 10)] := rfl

theorem natDecCharsAux_two_digits (fuel n : ℕ) (h1 : 10 ≤ n) (h2 : n ≤ 99) :
    natDecCharsAux (fuel + 1 + 1) n = [Nat.digitChar (n / 10), Nat.digitChar (n % 10)] := by
  rw [natDecCharsAux_succ, if_neg (show n ≠ 0 by omega),
    natDecCharsAux_one_digit fuel (n / 10) (by omega) (by omega)]
  rfl

theorem natDecCharsAux_three_digits (fuel n : ℕ) (h1 : 100 ≤ n) (h2 : n ≤ 999) :
    natDecCharsAux (fuel + 1 + 1 + 1) n =
      [Nat.digitChar (n / 100), Nat.digitChar (n / 10 % 10), Nat.digitChar (n % 10)] := by
  rw [natDecCharsAux_succ, if_neg (show n ≠ 0 by omega),
    natDecCharsAux_two_digits fuel (n / 10) (by omega) (by omega),
    show n / 10 / 10 = n / 100 by omega]
  rfl

theorem natDecCharsAux_four_digits (fuel n : ℕ) (h1 : 1000 ≤ n) (h2 : n ≤ 9999) :
    natDecCharsAux (fuel + 1 + 1 + 1 + 1) n =
      [Nat.digitChar (n / 1000), Nat.digitChar (n / 100 % 10),
        Nat.digitChar (n / 10 % 10), Nat.digitChar (n % 10)] := by
  rw [natDecCharsAux_succ, if_neg (show n ≠ 0 by omega),
    natDecCharsAux_three_digits fuel (n / 10) (by omega) (by omega),
    show n / 10 / 100 = n / 1000 by omega, show n / 10 / 10 = n / 100 by omega]
  rfl

theorem digitChar_isDig (u : ℕ) (h : u < 10) : isDig (Nat.digitChar u) = true := by
  interval_cases u <;> decide

theorem digitChar_val (u : ℕ) (h : u < 10) : digitVal (Nat.digitChar u) = (u : ℤ) := by
  interval_cases u <;> decide

/-- Two-character zero-padded rendering of positive integers up to 99. -/
theorem pad2_intDecChars (k : ℤ) (h1 : 1 ≤ k) (h2 : k ≤ 99) :
    ∃ a b, pad2 (intDecChars k) = [a, b] ∧ isDig a = true ∧ isDig b = true ∧
      10 * digitVal a + digitVal b = k := by
  have hne : ¬ (k < 0) := by omega
  by_cases hsmall : k.natAbs ≤ 9
  · have hchars : intDecChars k = [Nat.digitChar k.natAbs] := by
      simp only [intDecChars, if_neg hne, natDecChars, if_neg (show k.natAbs ≠ 0 by omega)]
      rw [natDecCharsAux_succ, if_neg (show k.natAbs ≠ 0 by omega),
        show k.natAbs / 10 = 0 by omega, natDecCharsAux_zero,
        show k.natAbs % 10 = k.natAbs by omega]
      rfl
    refine ⟨'0', Nat.digitChar k.natAbs, ?_, by decide, digitChar_isDig _ (by omega), ?_⟩
    · rw [hchars]; rfl
    · rw [digitChar_val _ (by omega), show digitVal '0' = 0 by decide]
      omega
  · have hchars : intDecChars k =
        [Nat.digitChar (k.natAbs / 10), Nat.digitChar (k.natAbs % 10)] := by
      simp only [intDecChars, if_neg hne, natDecChars, if_neg (show k.natAbs ≠ 0 by omega)]
      rw [show k.natAbs + 1 = (k.natAbs - 1) + 1 + 1 by omega,
        natDecCharsAux_two_digits (k.natAbs - 1) k.natAbs (by omega) (by omega)]
    refine ⟨Nat.digitChar (k.natAbs / 10), Nat.digitChar (k.natAbs % 10), ?_,
      digitChar_isDig _ (by omega), digitChar_isDig _ (by omega), ?_⟩
    · rw [hchars]; rfl
    · rw [digitChar_val _ (by omega), digitChar_val _ (by omega)]
      omega

/-- Four-character rendering of integers in `[1000, 9999]`. -/
theorem intDecChars_four (k : ℤ) (h1 : 1000 ≤ k) (h2 : k ≤ 9999) :
    ∃ a b c d, intDecChars k = [a, b, c, d] ∧ isDig a = true ∧ isDig b = true ∧
      isDig c = true ∧ isDig d = true ∧
      1000 * digitVal a + 100 * digitVal b + 10 * digitVal c + digitVal d = k := by
  have hne : ¬ (k < 0) := by omega
  refine ⟨Nat.digitChar (k.natAbs / 1000), Nat.digitChar (k.natAbs / 100 % 10),
    Nat.digitChar (k.natAbs / 10 % 10), Nat.digitChar (k.natAbs % 10), ?_,
    digitChar_isDig _ (by omega), digitChar_isDig _ (by omega),
    digitChar_isDig _ (by omega), digitChar_isDig _ (by omega), ?_⟩
  · simp only [intDecChars, if_neg hne, natDecChars, if_neg (show k.natAbs ≠ 0 by omega)]
    rw [show k.natAbs + 1 = (k.natAbs - 3) + 1 + 1 + 1 + 1 by omega,
      natDecCharsAux_four_digits (k.natAbs - 3) k.natAbs (by omega) (by omega)]
  · rw [digitChar_val _ (by omega), digitChar_val _ (by omega),
      digitChar_val _ (by omega), digitChar_val _ (by omega)]
    omega

/-! ## Date parsing / formatting (translations of `parseDateOnly`,
`formatDateOnlyUtc`, `getClosestWeekendDates` from src/index.ts) -/

/-- Result record of `getClosestWeekendDates`. -/
structure WeekendDates where
  saturday : String
  sunday : String
  deriving DecidableEq

/-- Translation of `parseDateOnly`: test the anchored regex
`^(\d{4})-(\d{2})-(\d{2})$`, throw on mismatch, otherwise build the date as
`Date.UTC(Number(year), Number(month) - 1, Number(day))`. -/
def parseDateOnly (s : String) : Except String ℤ :=
  match s.data with
  | [y1, y2, y3, y4, s1, m1, m2, s2, d1, d2] =>
    if isDig y1 && isDig y2 && isDig y3 && isDig y4 && (s1 == '-') && isDig m1 && isDig m2 &&
        (s2 == '-') && isDig d1 && isDig d2 then
      Except.ok (dateUTC
        (1000 * digitVal y1 + 100 * digitVal y2 + 10 * digitVal y3 + digitVal y4)
        (10 * digitVal m1 + digitVal m2 - 1)
        (10 * digitVal d1 + digitVal d2))
    else Except.error ("유효하지 않은 날짜 형식: " ++ s)
  | _ => Except.error ("유효하지 않은 날짜 형식: " ++ s)

/-- Does a string match the date pattern `^\d{4}-\d{2}-\d{2}$` (the success
condition of `parseDateOnly`)? -/
def matchesYmd (s : String) : Bool :=
  match s.data with
  | [y1, y2, y3, y4, s1, m1, m2, s2, d1, d2] =>
    isDig y1 && isDig y2 && isDig y3 && isDig y4 && (s1 == '-') && isDig m1 && isDig m2 &&
      (s2 == '-') && isDig d1 && isDig d2
  | _ => false

/-- Translation of `formatDateOnlyUtc`: `${y}-${m}-${d}` with month and day
taken from the UTC accessors and left-padded to two characters. -/
def formatDateOnlyUtc (w : ℤ) : String :=
  String.mk (intDecChars (civilFromDays w).1 ++
    '-' :: pad2 (intDecChars (civilFromDays w).2.1) ++
    '-' :: pad2 (intDecChars (civilFromDays w).2.2))

/-- Translation of `getClosestWeekendDates`.  `dayOfWeek` models
`getUTCDay()` (`0` Sunday .. `6` Saturday, epoch day `0` being a
Thursday), and `addUtcDays` is day-number addition. -/
def getClosestWeekendDates (todayDateYmd : String) : Except String WeekendDates :=
  match parseDateOnly todayDateYmd with
  | Except.error e => Except.error e
  | Except.ok today =>
    let dayOfWeek := (today + 4) % 7
    let daysUntilSaturday := (6 - dayOfWeek + 7) % 7
    let saturday := today + daysUntilSaturday
    let sunday := saturday + 1
    Except.ok ⟨formatDateOnlyUtc saturday, formatDateOnlyUtc sunday⟩

/-- Formatting a day number in the supported range yields a `YYYY-MM-DD`
string that parses back to the same day number. -/
theorem parse_of_format (w : ℤ) (h1 : -354285 ≤ w) (h2 : w ≤ 2932896) :
    parseDateOnly (formatDateOnlyUtc w) = Except.ok w ∧
      matchesYmd (formatDateOnlyUtc w) = true := by
  obtain ⟨hy1, hy2, hm1, hm2, hd1, hd2⟩ := civilFromDays_bounds w h1 h2
  obtain ⟨a, b, c, d, hy, ha, hb, hc, hd, hval⟩ := intDecChars_four (civilFromDays w).1 hy1 hy2
  obtain ⟨e, f, hpm, hdige, hdigf, hvalm⟩ := pad2_intDecChars (civilFromDays w).2.1 hm1 (by omega)
  obtain ⟨g, h, hpd, hdigg, hdigh, hvald⟩ := pad2_intDecChars (civilFromDays w).2.2 hd1 (by omega)
  have hdata : (formatDateOnlyUtc w).data = [a, b, c, d, '-', e, f, '-', g, h] := by
    show (intDecChars (civilFromDays w).1 ++
      '-' :: pad2 (intDecChars (civilFromDays w).2.1) ++
      '-' :: pad2 (intDecChars (civilFromDays w).2.2)) = _
    rw [hy, hpm, hpd]
    rfl
  have harith : dateUTC (1000 * digitVal a + 100 * digitVal b + 10 * digitVal c + digitVal d)
      (10 * digitVal e + digitVal f - 1) (10 * digitVal g + digitVal h) = w := by
    rw [hval, hvalm, hvald]
    simp only [dateUTC]
    rw [if_neg (show ¬ (0 ≤ (civilFromDays w).1 ∧ (civilFromDays w).1 ≤ 99) by omega)]
    rw [show (12 * (civilFromDays w).1 + ((civilFromDays w).2.1 - 1)) / 12 =
      (civilFromDays w).1 by omega]
    rw [show (12 * (civilFromDays w).1 + ((civilFromDays w).2.1 - 1)) % 12 + 1 =
      (civilFromDays w).2.1 by omega]
    rw [daysFromCivil_day_shift]
    exact civilFromDays_roundtrip w
  constructor
  · simp only [parseDateOnly, hdata, ha, hb, hc, hd, hdige, hdigf, hdigg, hdigh]
    simp only [beq_self_eq_true, Bool.and_self, Bool.true_and, Bool.and_true, if_true]
    rw [harith]
  · simp only [matchesYmd, hdata, ha, hb, hc, hd, hdige, hdigf, hdigg, hdigh]
    simp [beq_self_eq_true]

/-! ## Data model (interfaces from src/index.ts) -/

/-- `DailyTemperature`. -/
structure DailyTemperature where
  min : Option ℚ
  max : Option ℚ
  deriving DecidableEq

/-- `PeriodAverage`. -/
structure PeriodAverage where
  morning : Option ℚ
  afternoon : Option ℚ
  deriving DecidableEq

/-- `AirDaySummary`. -/
structure AirDaySummary where
  pm10 : PeriodAverage
  pm2_5 : PeriodAverage
  deriving DecidableEq

/-- `WeatherDayPeriodSummary`. -/
structure WeatherDayPeriodSummary where
  temperature : PeriodAverage
  weatherCode : PeriodAverage
  deriving DecidableEq

/-- `WeatherApiResponse.daily`: each field is `none` when it is missing or
not an array (the `Array.isArray` guards fail exactly then). -/
structure WeatherDaily where
  time : Option (List String)
  temperature_2m_min : Option (List (Option ℚ))
  temperature_2m_max : Option (List (Option ℚ))

/-- `WeatherApiResponse.hourly`. -/
structure WeatherHourly where
  time : Option (List String)
  temperature_2m : Option (List (Option ℚ))
  weather_code : Option (List (Option ℚ))

/-- `WeatherApiResponse`. -/
structure WeatherApiResponse where
  daily : Option WeatherDaily
  hourly : Option WeatherHourly

/-- `AirApiResponse`. -/
structure AirHourly where
  time : Option (List String)
  pm10 : Option (List (Option ℚ))
  pm2_5 : Option (List (Option ℚ))

/-- `AirApiResponse`. -/
structure AirApiResponse where
  hourly : Option AirHourly

/-- Property read on a JS string-keyed object (insertion-ordered
association list). -/
def lookupAL {α : Type} : List (String × α) → String → Option α
  | [], _ => none
  | (k, v) :: rest, key => if k = key then some v else lookupAL rest key

/-- Property write on a JS object: overwrite in place, append if new. -/
def setAL {α : Type} : List (String × α) → String → α → List (String × α)
  | [], key, v => [(key, v)]
  | (k, w) :: rest, key, v =>
    if k = key then (k, v) :: rest else (k, w) :: setAL rest key v

/-- In-place modification of an existing key (used for `buckets[date]`
mutations, which always follow a presence check). -/
def updateAL {α : Type} : List (String × α) → String → (α → α) → List (String × α)
  | [], _, _ => []
  | (k, v) :: rest, key, f =>
    if k = key then (k, f v) :: rest else (k, v) :: updateAL rest key f

/-! ## Aggregation (translations of `mapWeatherDailyByDate`, `average`,
`aggregateAirQualityByDate`, `representativeWeatherCode`,
`aggregateWeatherPeriodsByDate`) -/

/-- Loop body of `mapWeatherDailyByDate`: `result[time[i]] = {min, max}`.
The source's `typeof v === "number" ? v : null` is the identity on the
`Option ℚ` model of `number | null` entries. -/
def mapWeatherDailyLoop : List String → List (Option ℚ) → List (Option ℚ) →
    List (String × DailyTemperature) → List (String × DailyTemperature)
  | t :: ts, mn :: mns, mx :: mxs, acc => mapWeatherDailyLoop ts mns mxs (setAL acc t ⟨mn, mx⟩)
  | _, _, _, acc => acc

/-- `mapWeatherDailyByDate`. -/
def mapWeatherDailyByDate (response : WeatherApiResponse) :
    Except String (List (String × DailyTemperature)) :=
  match response.daily with
  | none => Except.error "Weather API 응답에 daily.time/min/max 배열이 없습니다."
  | some daily =>
    match daily.time, daily.temperature_2m_min, daily.temperature_2m_max with
    | some time, some mn, some mx =>
      if time.length = mn.length ∧ time.length = mx.length then
        Except.ok (mapWeatherDailyLoop time mn mx [])
      else Except.error "Weather API 응답 배열 길이가 일치하지 않습니다."
    | _, _, _ => Except.error "Weather API 응답에 daily.time/min/max 배열이 없습니다."

/-- `average`: null for an empty list, otherwise `reduce`-sum divided by
length. -/
def average (values : List ℚ) : Option ℚ :=
  if values.length = 0 then none
  else some (values.foldl (· + ·) 0 / (values.length : ℚ))

/-- The two daytime windows. -/
inductive DayPeriod where
  | morning
  | afternoon
  deriving DecidableEq

/-- The period classification chain shared by both hourly aggregators:
`hour >= 6 && hour <= 11` is morning, `hour >= 12 && hour <= 17` is
afternoon, anything else is no period. -/
def periodOfHour (hour : ℕ) : Option DayPeriod :=
  if 6 ≤ hour ∧ hour ≤ 11 then some DayPeriod.morning
  else if 12 ≤ hour ∧ hour ≤ 17 then some DayPeriod.afternoon
  else none

/-- The regex `/^(\d{4}-\d{2}-\d{2})T(\d{2}):/` applied to an hourly time
string: on success, the captured date string and the two-digit hour. -/
def parseTimeHour (s : String) : Option (String × ℕ) :=
  match s.data with
  | y1 :: y2 :: y3 :: y4 :: s1 :: m1 :: m2 :: s2 :: d1 :: d2 :: t :: h1 :: h2 :: c :: _ =>
    if isDig y1 && isDig y2 && isDig y3 && isDig y4 && (s1 == '-') && isDig m1 && isDig m2 &&
        (s2 == '-') && isDig d1 && isDig d2 && (t == 'T') && isDig h1 && isDig h2 &&
        (c == ':') then
      some (String.mk [y1, y2, y3, y4, s1, m1, m2, s2, d1, d2],
        10 * (h1.toNat - 48) + (h2.toNat - 48))
    else none
  | _ => none

/-- The per-period sample lists of one bucket channel. -/
structure PeriodSamples where
  morning : List ℚ
  afternoon : List ℚ
  deriving DecidableEq

/-- One date bucket of the hourly bucketing loops.  Both source loops use
a record of two tracked channels (`pm10`/`pm2_5` in
`aggregateAirQualityByDate`, `temperature`/`weatherCode` in
`aggregateWeatherPeriodsByDate`); the two loops are identical up to the
channel field names, so they share this translation. -/
structure HourlyBucket where
  chan1 : PeriodSamples
  chan2 : PeriodSamples
  deriving DecidableEq

/-- A fresh bucket, as created by the `if (!buckets[date])` branch. -/
def emptyHourlyBucket : HourlyBucket := ⟨⟨[], []⟩, ⟨[], []⟩⟩

/-- `array.push(v)` on the chosen period list. -/
def pushSample (ps : PeriodSamples) (p : DayPeriod) (v : ℚ) : PeriodSamples :=
  match p with
  | DayPeriod.morning => ⟨ps.morning ++ [v], ps.afternoon⟩
  | DayPeriod.afternoon => ⟨ps.morning, ps.afternoon ++ [v]⟩

/-- One iteration of the shared hourly bucketing loop: parse the time
string (skip the sample on regex mismatch), create the date bucket if
absent (before the period classification), classify the hour (skip when
out of both windows), then push each channel value that is a finite
number. -/
def bucketStep (buckets : List (String × HourlyBucket)) (iso : String)
    (v1 v2 : Option ℚ) : List (String × HourlyBucket) :=
  match parseTimeHour iso with
  | none => buckets
  | some (date, hour) =>
    let buckets :=
      match lookupAL buckets date with
      | some _ => buckets
      | none => buckets ++ [(date, emptyHourlyBucket)]
    match periodOfHour hour with
    | none => buckets
    | some p =>
      let buckets :=
        match v1 with
        | some v => updateAL buckets date (fun b => ⟨pushSample b.chan1 p v, b.chan2⟩)
        | none => buckets
      match v2 with
      | some v => updateAL buckets date (fun b => ⟨b.chan1, pushSample b.chan2 p v⟩)
      | none => buckets

/-- The shared hourly bucketing loop over the parallel arrays. -/
def bucketLoop : List String → List (Option ℚ) → List (Option ℚ) →
    List (String × HourlyBucket) → List (String × HourlyBucket)
  | t :: ts, x :: xs, y :: ys, buckets => bucketLoop ts xs ys (bucketStep buckets t x y)
  | _, _, _, buckets => buckets

/-- `aggregateAirQualityByDate` (channel 1 is `pm10`, channel 2 is
`pm2_5`). -/
def aggregateAirQualityByDate (response : AirApiResponse) :
    Except String (List (String × AirDaySummary)) :=
  match response.hourly with
  | none => Except.error "Air API 응답에 hourly.time/pm10/pm2_5 배열이 없습니다."
  | some hourly =>
    match hourly.time, hourly.pm10, hourly.pm2_5 with
    | some time, some pm10, some pm2_5 =>
      if time.length = pm10.length ∧ time.length = pm2_5.length then
        Except.ok ((bucketLoop time pm10 pm2_5 []).map (fun entry =>
          (entry.1,
            { pm10 := ⟨average entry.2.chan1.morning, average entry.2.chan1.afternoon⟩,
              pm2_5 := ⟨average entry.2.chan2.morning, average entry.2.chan2.afternoon⟩ })))
      else Except.error "Air API 응답 배열 길이가 일치하지 않습니다."
    | _, _, _ => Except.error "Air API 응답에 hourly.time/pm10/pm2_5 배열이 없습니다."

/-- One step of the `counts` map construction in
`representativeWeatherCode`: increment the entry in place, or append a
fresh `(value, count 1, firstIndex i)` entry (JS `Map` preserves insertion
order). -/
def bumpCount : List (ℚ × ℕ × ℕ) → ℚ → ℕ → List (ℚ × ℕ × ℕ)
  | [], v, i => [(v, 1, i)]
  | (u, c, f) :: rest, v, i =>
    if u = v then (u, c + 1, f) :: rest else (u, c, f) :: bumpCount rest v i

/-- The indexed loop filling the `counts` map. -/
def buildCounts : List ℚ → ℕ → List (ℚ × ℕ × ℕ) → List (ℚ × ℕ × ℕ)
  | [], _, acc => acc
  | v :: vs, i, acc => buildCounts vs (i + 1) (bumpCount acc v i)

/-- The scan over `counts.entries()` keeping the best
`(bestValue, bestCount, bestIndex)` triple under
`count > bestCount || (count == bestCount && firstIndex < bestIndex)`. -/
def scanBest : List (ℚ × ℕ × ℕ) → ℚ × ℤ × ℕ → ℚ × ℤ × ℕ
  | [], best => best
  | (v, c, f) :: rest, best =>
    if (c : ℤ) > best.2.1 ∨ ((c : ℤ) = best.2.1 ∧ f < best.2.2) then
      scanBest rest (v, (c : ℤ), f)
    else scanBest rest best

/-- `representativeWeatherCode`: null for an empty list, otherwise the
scan result starting from `(values[0], -1, Number.MAX_SAFE_INTEGER)`. -/
def representativeWeatherCode (values : List ℚ) : Option ℚ :=
  match values with
  | [] => none
  | v0 :: _ => some (scanBest (buildCounts values 0 []) (v0, -1, 9007199254740991)).1

/-- `aggregateWeatherPeriodsByDate` (channel 1 is `temperature`, channel 2
is `weather_code`). -/
def aggregateWeatherPeriodsByDate (response : WeatherApiResponse) :
    Except String (List (String × WeatherDayPeriodSummary)) :=
  match response.hourly with
  | none =>
    Except.error "Weather API 응답에 hourly.time/temperature_2m/weather_code 배열이 없습니다."
  | some hourly =>
    match hourly.time, hourly.temperature_2m, hourly.weather_code with
    | some time, some temperature, some weatherCode =>
      if time.length = temperature.length ∧ time.length = weatherCode.length then
        Except.ok ((bucketLoop time temperature weatherCode []).map (fun entry =>
          (entry.1,
            { temperature :=
                ⟨average entry.2.chan1.morning, average entry.2.chan1.afternoon⟩,
              weatherCode :=
                ⟨representativeWeatherCode entry.2.chan2.morning,
                  representativeWeatherCode entry.2.chan2.afternoon⟩ })))
      else Except.error "Weather API hourly 응답 배열 길이가 일치하지 않습니다."
    | _, _, _ =>
      Except.error "Weather API 응답에 hourly.time/temperature_2m/weather_code 배열이 없습니다."

/-! ## Rounding and label formatting (translations of `roundToOneDecimal`,
`formatRoundedNumber`, `formatTemperature`, `describeTemperature`,
`describeWeatherCode`, `formatWeatherLabel`, `formatWeatherPeriodPair`,
`getPmGrade`, `formatPmValueWithGrade`, `formatPmPeriodPair`) -/

/-- `Number.EPSILON` = 2 ^ (-52). -/
def jsEpsilon : ℚ := 1 / 4503599627370496

/-- JS `Math.round`: round to the nearest integer, halves toward
positive infinity. -/
def jsRound (x : ℚ) : ℤ := ⌊x + 1 / 2⌋

/-- `roundToOneDecimal`: `Math.round((value + Number.EPSILON) * 10) / 10`. -/
def roundToOneDecimal (value : ℚ) : ℚ := (jsRound ((value + jsEpsilon) * 10) : ℚ) / 10

/-- JS `toFixed(1)` for a value that is exactly `t / 10`: sign, integer
part, dot, single tenths digit. -/
def formatTenths (t : ℤ) : String :=
  (if t < 0 then "-" else "") ++ String.mk (natDecChars (t.natAbs / 10)) ++ "." ++
    String.mk (natDecChars (t.natAbs % 10))

/-- `formatRoundedNumber`.  `Number.isInteger r` holds exactly when
`⌊r⌋ = r`; an integer renders as `String(r)` and a non-integer (always an
exact multiple of 1/10 here) renders via `toFixed(1)`. -/
def formatRoundedNumber (value : Option ℚ) : String :=
  match value with
  | none => "데이터없음"
  | some v =>
    let rounded := roundToOneDecimal v
    if (⌊rounded⌋ : ℚ) = rounded then intToDecString ⌊rounded⌋
    else formatTenths ⌊rounded * 10⌋

/-- `formatTemperature`. -/
def formatTemperature (value : Option ℚ) : String :=
  match value with
  | none => "데이터없음"
  | some v => formatRoundedNumber (some v) ++ "°C"

/-- `describeTemperature`. -/
def describeTemperature (value : Option ℚ) : Option String :=
  match value with
  | none => none
  | some v =>
    if v ≤ -5 then some "매우추움"
    else if v ≤ 5 then some "추움"
    else if v ≤ 12 then some "쌀쌀함"
    else if v ≤ 19 then some "선선함"
    else if v ≤ 26 then some "온화함"
    else if v ≤ 31 then some "더움"
    else some "매우더움"

/-- `describeWeatherCode`. -/
def describeWeatherCode (value : Option ℚ) : Option String :=
  match value with
  | none => none
  | some v =>
    if v = 0 then some "맑음"
    else if v = 1 ∨ v = 2 ∨ v = 3 then some "흐림"
    else if v = 45 ∨ v = 48 then some "안개"
    else if (51 ≤ v ∧ v ≤ 67) ∨ (80 ≤ v ∧ v ≤ 82) then some "비"
    else if (71 ≤ v ∧ v ≤ 77) ∨ v = 85 ∨ v = 86 then some "눈"
    else if v = 95 ∨ v = 96 ∨ v = 99 then some "뇌우"
    else some "날씨정보없음"

/-- JS truthiness of a `string | null` value (`null` and the empty string
are falsy). -/
def strTruthy : Option String → Bool
  | none => false
  | some s => !(s == "")

/-- The string a truthy `string | null` value interpolates as. -/
def optionStr : Option String → String
  | none => ""
  | some s => s

/-- `formatWeatherLabel`. -/
def formatWeatherLabel (temperature weatherCode : Option ℚ) : String :=
  let temperatureLabel := describeTemperature temperature
  let weatherLabel := describeWeatherCode weatherCode
  if strTruthy temperatureLabel && strTruthy weatherLabel then
    optionStr temperatureLabel ++ "·" ++ optionStr weatherLabel
  else if strTruthy temperatureLabel then optionStr temperatureLabel
  else if strTruthy weatherLabel then optionStr weatherLabel
  else "데이터없음"

/-- `formatWeatherPeriodPair`. -/
def formatWeatherPeriodPair (summary : WeatherDayPeriodSummary) : String :=
  String.intercalate "\n"
    ["- 오전: " ++ formatWeatherLabel summary.temperature.morning summary.weatherCode.morning,
      "- 오후: " ++ formatWeatherLabel summary.temperature.afternoon summary.weatherCode.afternoon]

/-- The two pollutant kinds. -/
inductive PmKind where
  | pm10
  | pm2_5
  deriving DecidableEq

/-- `getPmGrade`. -/
def getPmGrade (kind : PmKind) (value : Option ℚ) : Option String :=
  match value with
  | none => none
  | some v =>
    match kind with
    | PmKind.pm10 =>
      if v ≤ 30 then some "좋음"
      else if v ≤ 80 then some "보통"
      else if v ≤ 150 then some "나쁨"
      else some "매우나쁨"
    | PmKind.pm2_5 =>
      if v ≤ 15 then some "좋음"
      else if v ≤ 35 then some "보통"
      else if v ≤ 75 then some "나쁨"
      else some "매우나쁨"

/-- How a `string | null` value interpolates into a JS template literal
(`null` prints as `"null"`; unreachable here since the grade of a present
value is never null). -/
def jsTemplate : Option String → String
  | none => "null"
  | some s => s

/-- `formatPmValueWithGrade`. -/
def formatPmValueWithGrade (kind : PmKind) (value : Option ℚ) : String :=
  match value with
  | none => "데이터없음"
  | some v =>
    jsTemplate (getPmGrade kind (some v)) ++ "(" ++ formatRoundedNumber (some v) ++ ")µg/m³"

/-- `formatPmPeriodPair`. -/
def formatPmPeriodPair (kind : PmKind) (period : PeriodAverage) (includeUnit : Bool) : String :=
  let pair := String.intercalate "\n"
    ["- 오전: " ++ formatPmValueWithGrade kind period.morning,
      "- 오후: " ++ formatPmValueWithGrade kind period.afternoon]
  if includeUnit then pair ++ " µg/m³" else pair

/-! ## Report composer (translation of `buildReportMessage` and the empty
summary constructors) -/

/-- `emptyAirDaySummary()`. -/
def emptyAirDaySummary : AirDaySummary := ⟨⟨none, none⟩, ⟨none, none⟩⟩

/-- `emptyWeatherDayPeriodSummary()`. -/
def emptyWeatherDayPeriodSummary : WeatherDayPeriodSummary := ⟨⟨none, none⟩, ⟨none, none⟩⟩

/-- `BuildReportMessageInput`. -/
structure BuildReportMessageInput where
  todayDate : String
  weekend : WeekendDates
  weatherByDate : List (String × DailyTemperature)
  weatherPeriodsByDate : List (String × WeatherDayPeriodSummary)
  airByDate : List (String × AirDaySummary)

/-- The `lines` array of `buildReportMessage`, including the `??` fallback
lookups. -/
def buildReportLines (input : BuildReportMessageInput) : List String :=
  let todayWeather := (lookupAL input.weatherByDate input.todayDate).getD ⟨none, none⟩
  let todayWeatherPeriod :=
    (lookupAL input.weatherPeriodsByDate input.todayDate).getD emptyWeatherDayPeriodSummary
  let todayAir := (lookupAL input.airByDate input.todayDate).getD emptyAirDaySummary
  let saturdayWeather := (lookupAL input.weatherByDate input.weekend.saturday).getD ⟨none, none⟩
  let sundayWeather := (lookupAL input.weatherByDate input.weekend.sunday).getD ⟨none, none⟩
  let saturdayWeatherPeriod :=
    (lookupAL input.weatherPeriodsByDate input.weekend.saturday).getD
      emptyWeatherDayPeriodSummary
  let sundayWeatherPeriod :=
    (lookupAL input.weatherPeriodsByDate input.weekend.sunday).getD
      emptyWeatherDayPeriodSummary
  let saturdayAir := (lookupAL input.airByDate input.weekend.saturday).getD emptyAirDaySummary
  let sundayAir := (lookupAL input.airByDate input.weekend.sunday).getD emptyAirDaySummary
  ["[서울]",
    "오늘(" ++ input.todayDate ++ ")",
    "🌡️ 기온",
    "- 최저: " ++ formatTemperature todayWeather.min,
    "- 최고: " ++ formatTemperature todayWeather.max,
    "🌤️ 날씨",
    formatWeatherPeriodPair todayWeatherPeriod,
    "😷 미세먼지",
    formatPmPeriodPair PmKind.pm10 todayAir.pm10 false,
    "🫁 초미세먼지",
    formatPmPeriodPair PmKind.pm2_5 todayAir.pm2_5 false,
    "",
    "[주말]",
    "토(" ++ input.weekend.saturday ++ ")",
    "🌡️ 기온",
    "- 최저: " ++ formatTemperature saturdayWeather.min,
    "- 최고: " ++ formatTemperature saturdayWeather.max,
    "🌤️ 날씨",
    formatWeatherPeriodPair saturdayWeatherPeriod,
    "😷 미세먼지",
    formatPmPeriodPair PmKind.pm10 saturdayAir.pm10 false,
    "🫁 초미세먼지",
    formatPmPeriodPair PmKind.pm2_5 saturdayAir.pm2_5 false,
    "",
    "일(" ++ input.weekend.sunday ++ ")",
    "🌡️ 기온",
    "- 최저: " ++ formatTemperature sundayWeather.min,
    "- 최고: " ++ formatTemperature sundayWeather.max,
    "🌤️ 날씨",
    formatWeatherPeriodPair sundayWeatherPeriod,
    "😷 미세먼지",
    formatPmPeriodPair PmKind.pm10 sundayAir.pm10 false,
    "🫁 초미세먼지",
    formatPmPeriodPair PmKind.pm2_5 sundayAir.pm2_5 false]

/-- `buildReportMessage`: the lines joined by single newlines. -/
def buildReportMessage (input : BuildReportMessageInput) : String :=
  String.intercalate "\n" (buildReportLines input)

/-! ## Helper lemmas for rounding and formatting -/

theorem jsRound_eq (x : ℚ) (n : ℤ) (h1 : (n : ℚ) ≤ x + 1 / 2) (h2 : x + 1 / 2 < (n : ℚ) + 1) :
    jsRound x = n := by
  rw [jsRound, Int.floor_eq_iff]
  exact ⟨h1, by exact_mod_cast h2⟩

/-- The rounding rule exactly as the spec words it: "round half away from
zero".  The code's `Math.round` agrees with this on nonnegative arguments
and differs exactly on negative half-integers. -/
def specRoundHalfAwayFromZero (x : ℚ) : ℤ :=
  if x < 0 then -⌊-x + 1 / 2⌋ else ⌊x + 1 / 2⌋

/-- The rendering rule as the spec words it, applied to a value of exactly
`t / 10`: drop the trailing `.0` when the rounded value is whole,
otherwise keep exactly one decimal digit. -/
def specRenderTenths (t : ℤ) : String :=
  if t % 10 = 0 then intToDecString (t / 10) else formatTenths t

theorem formatRoundedNumber_render (v : ℚ) :
    formatRoundedNumber (some v) = specRenderTenths (jsRound ((v + jsEpsilon) * 10)) := by
  simp only [formatRoundedNumber, roundToOneDecimal, specRenderTenths]
  set n := jsRound ((v + jsEpsilon) * 10) with hn
  have hfl : ⌊(n : ℚ) / 10⌋ = n / 10 := by
    have h := Rat.floor_intCast_div_natCast n 10
    exact_mod_cast h
  have hmul : (n : ℚ) / 10 * 10 = (n : ℚ) := by
    field_simp
  by_cases hdvd : n % 10 = 0
  · have hdiv : ((n / 10 : ℤ) : ℚ) = (n : ℚ) / 10 := by
      obtain ⟨k, hk⟩ : (10 : ℤ) ∣ n := by omega
      rw [hk, Int.mul_ediv_cancel_left k (by norm_num)]
      push_cast
      ring
    rw [if_pos (by rw [hfl]; exact hdiv), if_pos hdvd, hfl]
  · have hdiv : ((n / 10 : ℤ) : ℚ) ≠ (n : ℚ) / 10 := by
      intro hEq
      have h1 : ((n / 10 : ℤ) : ℚ) * 10 = (n : ℚ) := by rw [hEq]; field_simp
      have h2 : (n / 10) * 10 = n := by exact_mod_cast h1
      omega
    rw [if_neg (by rw [hfl]; exact hdiv), if_neg hdvd, hmul, Int.floor_intCast]

/-! ## C3: aggregation over empty buckets -/

/-- C3: aggregation over an empty bucket always yields absent (`none`),
never `0` and never NaN: the numeric average of an empty list is `none`
and the representative categorical value of an empty list is `none`;
for every non-empty list the average is exactly the arithmetic mean
(sum divided by count), with no rounding at this stage. -/
theorem C3_empty_aggregation :
    average [] = none ∧ representativeWeatherCode [] = none ∧
    ∀ values : List ℚ, values ≠ [] →
      average values = some (values.sum / (values.length : ℚ)) := by
  refine ⟨rfl, rfl, fun l hl => ?_⟩
  have hlen : ¬ (l.length = 0) := by simpa using hl
  simp only [average, if_neg hlen]
  rw [← List.sum_eq_foldl]

/-- C3 witness: the average of the concrete bucket `[1, 2]` is `3/2`. -/
theorem C3_witness : average [1, 2] = some ((3 : ℚ) / 2) := by
  have h := C3_empty_aggregation.2.2 [1, 2] (by simp)
  rw [h]
  norm_num

/-! ## C6: rounding and number formatting -/

/-- C6 counterexample: the claim as stated is false.  The code rounds with
`Math.round` (halves toward positive infinity), not half away from zero:
at the value `-9/20 - Number.EPSILON`, the epsilon-adjusted argument is
the exact half `-4.5` tenths, the code renders `"-0.4"`, while the claimed
round-half-away-from-zero rule renders `"-0.5"`. -/
theorem C6_counterexample :
    formatRoundedNumber (some (-9 / 20 - jsEpsilon)) = "-0.4" ∧
    specRenderTenths (specRoundHalfAwayFromZero ((-9 / 20 - jsEpsilon + jsEpsilon) * 10)) =
      "-0.5" ∧
    ("-0.4" : String) ≠ "-0.5" := by
  refine ⟨?_, ?_, by decide⟩
  · rw [formatRoundedNumber_render,
      jsRound_eq ((-9 / 20 - jsEpsilon + jsEpsilon) * 10) (-4)
        (by norm_num [jsEpsilon]) (by norm_num [jsEpsilon])]
    decide
  · rw [show ((-9 : ℚ) / 20 - jsEpsilon + jsEpsilon) * 10 = -9 / 2 by ring]
    rw [show specRoundHalfAwayFromZero (-9 / 2 : ℚ) = -5 by
      rw [specRoundHalfAwayFromZero, if_pos (by norm_num),
        show (-(-9 / 2) + 1 / 2 : ℚ) = ((5 : ℤ) : ℚ) by norm_num, Int.floor_intCast]]
    decide

/-- C6 (amended): `formatRoundedNumber` rounds to one decimal place with
JS `Math.round` (half toward positive infinity) after adding
`Number.EPSILON` — which coincides with round-half-away-from-zero for all
nonnegative inputs — renders a whole rounded value without a trailing
`.0` and a non-whole one with exactly one decimal digit (the shared
renderer `specRenderTenths`), renders absent as the fixed no-data token,
and in particular maps `35.04` to `"35"`, `42.06` to `"42.1"` and `1.05`
to `"1.1"`. -/
theorem C6_rounding_format :
    (∀ v : ℚ, 0 ≤ v → formatRoundedNumber (some v) =
      specRenderTenths (specRoundHalfAwayFromZero ((v + jsEpsilon) * 10))) ∧
    (∀ v : ℚ, roundToOneDecimal v = ((jsRound ((v + jsEpsilon) * 10) : ℤ) : ℚ) / 10) ∧
    formatRoundedNumber none = "데이터없음" ∧
    formatRoundedNumber (some (3504 / 100)) = "35" ∧
    formatRoundedNumber (some (4206 / 100)) = "42.1" ∧
    formatRoundedNumber (some (105 / 100)) = "1.1" := by
  have hε : (0 : ℚ) < jsEpsilon := by norm_num [jsEpsilon]
  refine ⟨fun v hv => ?_, fun v => rfl, rfl, ?_, ?_, ?_⟩
  · rw [formatRoundedNumber_render]
    have hx : ¬ ((v + jsEpsilon) * 10 < 0) := by
      have h0 : (0 : ℚ) ≤ (v + jsEpsilon) * 10 := by positivity
      exact not_lt.mpr h0
    simp only [specRoundHalfAwayFromZero, if_neg hx, jsRound]
  · rw [formatRoundedNumber_render,
      jsRound_eq _ 350 (by norm_num [jsEpsilon]) (by norm_num [jsEpsilon])]
    decide
  · rw [formatRoundedNumber_render,
      jsRound_eq _ 421 (by norm_num [jsEpsilon]) (by norm_num [jsEpsilon])]
    decide
  · rw [formatRoundedNumber_render,
      jsRound_eq _ 11 (by norm_num [jsEpsilon]) (by norm_num [jsEpsilon])]
    decide

/-- C6 witness: the amended equation evaluated at the nonnegative input
`1/2`. -/
theorem C6_witness :
    formatRoundedNumber (some ((1 : ℚ) / 2)) =
      specRenderTenths (specRoundHalfAwayFromZero (((1 : ℚ) / 2 + jsEpsilon) * 10)) :=
  C6_rounding_format.1 (1 / 2) (by norm_num)

/-! ## C7: pollutant grading and formatting -/

/-- C7: for every present pollutant value the formatted cell is
`"<grade>(<rounded value>)µg/m³"` with the grade chosen by inclusive
thresholds (pm10: 30/80/150; pm2.5: 15/35/75), so pm10 value 30 is good
and 31 is moderate, pm2.5 value 15 is good and 16 is moderate; for an
absent value the cell is the no-data token and no grade is computed. -/
theorem C7_pm_grading :
    (∀ v : ℚ,
      (getPmGrade PmKind.pm10 (some v) = some "좋음" ↔ v ≤ 30) ∧
      (getPmGrade PmKind.pm10 (some v) = some "보통" ↔ 30 < v ∧ v ≤ 80) ∧
      (getPmGrade PmKind.pm10 (some v) = some "나쁨" ↔ 80 < v ∧ v ≤ 150) ∧
      (getPmGrade PmKind.pm10 (some v) = some "매우나쁨" ↔ 150 < v) ∧
      (getPmGrade PmKind.pm2_5 (some v) = some "좋음" ↔ v ≤ 15) ∧
      (getPmGrade PmKind.pm2_5 (some v) = some "보통" ↔ 15 < v ∧ v ≤ 35) ∧
      (getPmGrade PmKind.pm2_5 (some v) = some "나쁨" ↔ 35 < v ∧ v ≤ 75) ∧
      (getPmGrade PmKind.pm2_5 (some v) = some "매우나쁨" ↔ 75 < v)) ∧
    (∀ kind : PmKind, ∀ v : ℚ, ∃ g,
      getPmGrade kind (some v) = some g ∧
      formatPmValueWithGrade kind (some v) =
        g ++ "(" ++ formatRoundedNumber (some v) ++ ")µg/m³") ∧
    (∀ kind : PmKind, formatPmValueWithGrade kind none = "데이터없음" ∧
      getPmGrade kind none = none) ∧
    getPmGrade PmKind.pm10 (some 30) = some "좋음" ∧
    getPmGrade PmKind.pm10 (some 31) = some "보통" ∧
    getPmGrade PmKind.pm2_5 (some 15) = some "좋음" ∧
    getPmGrade PmKind.pm2_5 (some 16) = some "보통" := by
  refine ⟨fun v => ?_, fun kind v => ?_, fun kind => ⟨rfl, rfl⟩, ?_, ?_, ?_, ?_⟩
  · simp only [getPmGrade]
    refine ⟨?_, ?_, ?_, ?_, ?_, ?_, ?_, ?_⟩ <;>
      · split_ifs <;> simp_all <;> intros <;> linarith
  · rcases kind <;> simp only [getPmGrade, formatPmValueWithGrade] <;>
      split_ifs <;> exact ⟨_, rfl, rfl⟩
  · norm_num [getPmGrade]
  · norm_num [getPmGrade]
  · norm_num [getPmGrade]
  · norm_num [getPmGrade]

/-! ## C8: combined weather label -/

theorem describeTemperature_isSome (t : Option ℚ) :
    (describeTemperature t).isSome = t.isSome := by
  rcases t with _ | v
  · rfl
  · simp only [describeTemperature]
    split_ifs <;> rfl

theorem describeWeatherCode_isSome (w : Option ℚ) :
    (describeWeatherCode w).isSome = w.isSome := by
  rcases w with _ | v
  · rfl
  · simp only [describeWeatherCode]
    split_ifs <;> rfl

theorem describeTemperature_ne_empty (t : Option ℚ) (a : String)
    (h : describeTemperature t = some a) : a ≠ "" := by
  rcases t with _ | v
  · simp [describeTemperature] at h
  · simp only [describeTemperature] at h
    split_ifs at h <;> (replace h := Option.some.inj h; rw [← h]; decide)

theorem describeWeatherCode_ne_empty (w : Option ℚ) (b : String)
    (h : describeWeatherCode w = some b) : b ≠ "" := by
  rcases w with _ | v
  · simp [describeWeatherCode] at h
  · simp only [describeWeatherCode] at h
    split_ifs at h <;> (replace h := Option.some.inj h; rw [← h]; decide)

/-- C8: the combined weather label joins the temperature label and the
weather-code label with the middle dot when both are available, is the
single available label alone when exactly one is available (an absent
temperature with a present weather code yields just the weather label),
and is the no-data token when neither is available; a label is available
exactly when the corresponding input value is present. -/
theorem C8_weather_label :
    (∀ t : Option ℚ, (describeTemperature t).isSome = t.isSome) ∧
    (∀ w : Option ℚ, (describeWeatherCode w).isSome = w.isSome) ∧
    (∀ t w : Option ℚ, ∀ a b : String, describeTemperature t = some a →
      describeWeatherCode w = some b → formatWeatherLabel t w = a ++ "·" ++ b) ∧
    (∀ w : Option ℚ, ∀ b : String, describeWeatherCode w = some b →
      formatWeatherLabel none w = b) ∧
    (∀ t : Option ℚ, ∀ a : String, describeTemperature t = some a →
      formatWeatherLabel t none = a) ∧
    formatWeatherLabel none none = "데이터없음" := by
  refine ⟨describeTemperature_isSome, describeWeatherCode_isSome, ?_, ?_, ?_, rfl⟩
  · intro t w a b ht hw
    have ha := describeTemperature_ne_empty t a ht
    have hb := describeWeatherCode_ne_empty w b hw
    simp only [formatWeatherLabel, ht, hw, strTruthy, optionStr]
    rw [if_pos]
    simp [ha, hb]
  · intro w b hw
    have hb := describeWeatherCode_ne_empty w b hw
    simp only [formatWeatherLabel, hw, strTruthy, optionStr]
    have : describeTemperature none = none := rfl
    rw [this]
    simp [hb]
  · intro t a ht
    have ha := describeTemperature_ne_empty t a ht
    have : describeWeatherCode none = none := rfl
    simp only [formatWeatherLabel, ht, this, strTruthy, optionStr]
    simp [ha]

/-- C8 witness: an absent temperature with weather code 95 yields just the
thunderstorm label. -/
theorem C8_witness : formatWeatherLabel none (some 95) = "뇌우" :=
  C8_weather_label.2.2.2.1 (some 95) "뇌우" (by norm_num [describeWeatherCode])

/-! ## C5: shape errors of the three aggregators -/

theorem except_error_iff {ε α : Type} (x : Except ε α) (P : Prop)
    (h : (∃ m, x = Except.ok m) ↔ P) : (∃ e, x = Except.error e) ↔ ¬ P := by
  rcases x with e | m <;> simp_all

theorem mapWeatherDaily_ok_iff (r : WeatherApiResponse) :
    (∃ m, mapWeatherDailyByDate r = Except.ok m) ↔
      ∃ t mn mx, r.daily = some ⟨some t, some mn, some mx⟩ ∧
        t.length = mn.length ∧ t.length = mx.length := by
  rcases r with ⟨daily, hourly⟩
  rcases daily with _ | ⟨ot, omn, omx⟩
  · simp [mapWeatherDailyByDate]
  rcases ot with _ | t <;> rcases omn with _ | mn <;> rcases omx with _ | mx <;>
    simp only [mapWeatherDailyByDate] <;> try (simp; done)
  by_cases hlen : t.length = mn.length ∧ t.length = mx.length
  · rw [if_pos hlen]
    constructor
    · intro _
      exact ⟨t, mn, mx, rfl, hlen.1, hlen.2⟩
    · intro _
      exact ⟨_, rfl⟩
  · rw [if_neg hlen]
    constructor
    · rintro ⟨m, hm⟩
      simp at hm
    · rintro ⟨t2, mn2, mx2, heq, hl1, hl2⟩
      simp only [Option.some.injEq, WeatherDaily.mk.injEq] at heq
      obtain ⟨h3, h4, h5⟩ := heq
      cases h3
      cases h4
      cases h5
      exact (hlen ⟨hl1, hl2⟩).elim

theorem aggregateAir_ok_iff (r : AirApiResponse) :
    (∃ m, aggregateAirQualityByDate r = Except.ok m) ↔
      ∃ t p q, r.hourly = some ⟨some t, some p, some q⟩ ∧
        t.length = p.length ∧ t.length = q.length := by
  rcases r with ⟨hourly⟩
  rcases hourly with _ | ⟨ot, op, oq⟩
  · simp [aggregateAirQualityByDate]
  rcases ot with _ | t <;> rcases op with _ | p <;> rcases oq with _ | q <;>
    simp only [aggregateAirQualityByDate] <;> try (simp; done)
  by_cases hlen : t.length = p.length ∧ t.length = q.length
  · rw [if_pos hlen]
    constructor
    · intro _
      exact ⟨t, p, q, rfl, hlen.1, hlen.2⟩
    · intro _
      exact ⟨_, rfl⟩
  · rw [if_neg hlen]
    constructor
    · rintro ⟨m, hm⟩
      simp at hm
    · rintro ⟨t2, p2, q2, heq, hl1, hl2⟩
      simp only [Option.some.injEq, AirHourly.mk.injEq] at heq
      obtain ⟨h3, h4, h5⟩ := heq
      cases h3
      cases h4
      cases h5
      exact (hlen ⟨hl1, hl2⟩).elim

theorem aggregateWeatherPeriods_ok_iff (r : WeatherApiResponse) :
    (∃ m, aggregateWeatherPeriodsByDate r = Except.ok m) ↔
      ∃ t tp wc, r.hourly = some ⟨some t, some tp, some wc⟩ ∧
        t.length = tp.length ∧ t.length = wc.length := by
  rcases r with ⟨daily, hourly⟩
  rcases hourly with _ | ⟨ot, otp, owc⟩
  · simp [aggregateWeatherPeriodsByDate]
  rcases ot with _ | t <;> rcases otp with _ | tp <;> rcases owc with _ | wc <;>
    simp only [aggregateWeatherPeriodsByDate] <;> try (simp; done)
  by_cases hlen : t.length = tp.length ∧ t.length = wc.length
  · rw [if_pos hlen]
    constructor
    · intro _
      exact ⟨t, tp, wc, rfl, hlen.1, hlen.2⟩
    · intro _
      exact ⟨_, rfl⟩
  · rw [if_neg hlen]
    constructor
    · rintro ⟨m, hm⟩
      simp at hm
    · rintro ⟨t2, tp2, wc2, heq, hl1, hl2⟩
      simp only [Option.some.injEq, WeatherHourly.mk.injEq] at heq
      obtain ⟨h3, h4, h5⟩ := heq
      cases h3
      cases h4
      cases h5
      exact (hlen ⟨hl1, hl2⟩).elim

/-- C5: each aggregator (daily min/max mapper, air-quality bucketer,
weather-period bucketer) fails with an error exactly when an expected
parallel array is missing / not an array or the parallel arrays have
mismatched lengths; equivalently, under the precondition that all
expected arrays are present with equal lengths it succeeds for any
element values. -/
theorem C5_shape_errors :
    (∀ r : WeatherApiResponse,
      ((∃ m, mapWeatherDailyByDate r = Except.ok m) ↔
        ∃ t mn mx, r.daily = some ⟨some t, some mn, some mx⟩ ∧
          t.length = mn.length ∧ t.length = mx.length) ∧
      ((∃ e, mapWeatherDailyByDate r = Except.error e) ↔
        ¬ ∃ t mn mx, r.daily = some ⟨some t, some mn, some mx⟩ ∧
          t.length = mn.length ∧ t.length = mx.length)) ∧
    (∀ r : AirApiResponse,
      ((∃ m, aggregateAirQualityByDate r = Except.ok m) ↔
        ∃ t p q, r.hourly = some ⟨some t, some p, some q⟩ ∧
          t.length = p.length ∧ t.length = q.length) ∧
      ((∃ e, aggregateAirQualityByDate r = Except.error e) ↔
        ¬ ∃ t p q, r.hourly = some ⟨some t, some p, some q⟩ ∧
          t.length = p.length ∧ t.length = q.length)) ∧
    (∀ r : WeatherApiResponse,
      ((∃ m, aggregateWeatherPeriodsByDate r = Except.ok m) ↔
        ∃ t tp wc, r.hourly = some ⟨some t, some tp, some wc⟩ ∧
          t.length = tp.length ∧ t.length = wc.length) ∧
      ((∃ e, aggregateWeatherPeriodsByDate r = Except.error e) ↔
        ¬ ∃ t tp wc, r.hourly = some ⟨some t, some tp, some wc⟩ ∧
          t.length = tp.length ∧ t.length = wc.length)) :=
  ⟨fun r => ⟨mapWeatherDaily_ok_iff r,
      except_error_iff _ _ (mapWeatherDaily_ok_iff r)⟩,
    fun r => ⟨aggregateAir_ok_iff r,
      except_error_iff _ _ (aggregateAir_ok_iff r)⟩,
    fun r => ⟨aggregateWeatherPeriods_ok_iff r,
      except_error_iff _ _ (aggregateWeatherPeriods_ok_iff r)⟩⟩

/-! ## C9: missing-date fallback in the report composer -/

/-- C9: when a target date (today, Saturday, or Sunday) is absent from all
three summary maps, `buildReportMessage` substitutes the all-absent
default summaries and every value field of that date's report section
renders the no-data token (the builder is a total function, so no error
is ever raised). -/
theorem C9_missing_date_fallback :
    (∀ input : BuildReportMessageInput,
      lookupAL input.weatherByDate input.todayDate = none →
      lookupAL input.weatherPeriodsByDate input.todayDate = none →
      lookupAL input.airByDate input.todayDate = none →
      (buildReportLines input).take 11 =
        ["[서울]", "오늘(" ++ input.todayDate ++ ")", "🌡️ 기온",
          "- 최저: 데이터없음", "- 최고: 데이터없음", "🌤️ 날씨",
          "- 오전: 데이터없음\n- 오후: 데이터없음", "😷 미세먼지",
          "- 오전: 데이터없음\n- 오후: 데이터없음", "🫁 초미세먼지",
          "- 오전: 데이터없음\n- 오후: 데이터없음"]) ∧
    (∀ input : BuildReportMessageInput,
      lookupAL input.weatherByDate input.weekend.saturday = none →
      lookupAL input.weatherPeriodsByDate input.weekend.saturday = none →
      lookupAL input.airByDate input.weekend.saturday = none →
      ((buildReportLines input).drop 13).take 10 =
        ["토(" ++ input.weekend.saturday ++ ")", "🌡️ 기온",
          "- 최저: 데이터없음", "- 최고: 데이터없음", "🌤️ 날씨",
          "- 오전: 데이터없음\n- 오후: 데이터없음", "😷 미세먼지",
          "- 오전: 데이터없음\n- 오후: 데이터없음", "🫁 초미세먼지",
          "- 오전: 데이터없음\n- 오후: 데이터없음"]) ∧
    (∀ input : BuildReportMessageInput,
      lookupAL input.weatherByDate input.weekend.sunday = none →
      lookupAL input.weatherPeriodsByDate input.weekend.sunday = none →
      lookupAL input.airByDate input.weekend.sunday = none →
      ((buildReportLines input).drop 24).take 10 =
        ["일(" ++ input.weekend.sunday ++ ")", "🌡️ 기온",
          "- 최저: 데이터없음", "- 최고: 데이터없음", "🌤️ 날씨",
          "- 오전: 데이터없음\n- 오후: 데이터없음", "😷 미세먼지",
          "- 오전: 데이터없음\n- 오후: 데이터없음", "🫁 초미세먼지",
          "- 오전: 데이터없음\n- 오후: 데이터없음"]) := by
  refine ⟨fun input h1 h2 h3 => ?_, fun input h1 h2 h3 => ?_, fun input h1 h2 h3 => ?_⟩ <;>
    simp only [buildReportLines, h1, h2, h3, Option.getD_none] <;> rfl

/-- C9 witness: a report request over three completely empty maps renders
the no-data token in every value field of all three sections. -/
theorem C9_witness :
    (buildReportLines ⟨"2026-02-26", ⟨"2026-02-28", "2026-03-01"⟩, [], [], []⟩).take 11 =
      ["[서울]", "오늘(2026-02-26)", "🌡️ 기온",
        "- 최저: 데이터없음", "- 최고: 데이터없음", "🌤️ 날씨",
        "- 오전: 데이터없음\n- 오후: 데이터없음", "😷 미세먼지",
        "- 오전: 데이터없음\n- 오후: 데이터없음", "🫁 초미세먼지",
        "- 오전: 데이터없음\n- 오후: 데이터없음"] ∧
    ((buildReportLines ⟨"2026-02-26", ⟨"2026-02-28", "2026-03-01"⟩, [], [], []⟩).drop 13).take 10 =
      ["토(2026-02-28)", "🌡️ 기온",
        "- 최저: 데이터없음", "- 최고: 데이터없음", "🌤️ 날씨",
        "- 오전: 데이터없음\n- 오후: 데이터없음", "😷 미세먼지",
        "- 오전: 데이터없음\n- 오후: 데이터없음", "🫁 초미세먼지",
        "- 오전: 데이터없음\n- 오후: 데이터없음"] ∧
    ((buildReportLines ⟨"2026-02-26", ⟨"2026-02-28", "2026-03-01"⟩, [], [], []⟩).drop 24).take 10 =
      ["일(2026-03-01)", "🌡️ 기온",
        "- 최저: 데이터없음", "- 최고: 데이터없음", "🌤️ 날씨",
        "- 오전: 데이터없음\n- 오후: 데이터없음", "😷 미세먼지",
        "- 오전: 데이터없음\n- 오후: 데이터없음", "🫁 초미세먼지",
        "- 오전: 데이터없음\n- 오후: 데이터없음"] :=
  ⟨C9_missing_date_fallback.1 ⟨"2026-02-26", ⟨"2026-02-28", "2026-03-01"⟩, [], [], []⟩
      rfl rfl rfl,
    C9_missing_date_fallback.2.1 ⟨"2026-02-26", ⟨"2026-02-28", "2026-03-01"⟩, [], [], []⟩
      rfl rfl rfl,
    C9_missing_date_fallback.2.2 ⟨"2026-02-26", ⟨"2026-02-28", "2026-03-01"⟩, [], [], []⟩
      rfl rfl rfl⟩

/-! ## C1: hourly sample classification and filtering -/

theorem periodOfHour_morning_iff (h : ℕ) :
    periodOfHour h = some DayPeriod.morning ↔ 6 ≤ h ∧ h ≤ 11 := by
  simp only [periodOfHour]
  split_ifs with h1 h2 <;> simp_all

theorem periodOfHour_afternoon_iff (h : ℕ) :
    periodOfHour h = some DayPeriod.afternoon ↔ 12 ≤ h ∧ h ≤ 17 := by
  simp only [periodOfHour]
  split_ifs with h1 h2 <;> simp_all <;> omega

theorem periodOfHour_none_iff (h : ℕ) :
    periodOfHour h = none ↔ h < 6 ∨ 18 ≤ h := by
  simp only [periodOfHour]
  split_ifs with h1 h2 <;> simp_all <;> omega

theorem average_nil : average [] = none := rfl

theorem representativeWeatherCode_nil : representativeWeatherCode [] = none := rfl

theorem average_toList (o : Option ℚ) : average o.toList = o := by
  rcases o with _ | v
  · rfl
  · simp [average]

theorem representativeWeatherCode_toList (o : Option ℚ) :
    representativeWeatherCode o.toList = o := by
  rcases o with _ | v
  · rfl
  · show some (scanBest (buildCounts [v] 0 []) (v, -1, 9007199254740991)).1 = some v
    simp only [buildCounts, bumpCount]
    norm_num [scanBest]

/-- Processing one sample against empty buckets: the date bucket holds the
channel values exactly in the window of the parsed hour. -/
theorem bucketStep_nil (s : String) (v1 v2 : Option ℚ) :
    bucketStep [] s v1 v2 = (match parseTimeHour s with
      | none => []
      | some (d, h) =>
        [(d, { chan1 := ⟨if 6 ≤ h ∧ h ≤ 11 then v1.toList else [],
                 if 12 ≤ h ∧ h ≤ 17 then v1.toList else []⟩,
               chan2 := ⟨if 6 ≤ h ∧ h ≤ 11 then v2.toList else [],
                 if 12 ≤ h ∧ h ≤ 17 then v2.toList else []⟩ })]) := by
  rcases hpt : parseTimeHour s with _ | ⟨d, h⟩
  · simp [bucketStep, hpt]
  simp only [bucketStep, hpt, lookupAL]
  rcases hp : periodOfHour h with _ | p
  · have hw := (periodOfHour_none_iff h).mp hp
    simp only [if_neg (show ¬ (6 ≤ h ∧ h ≤ 11) by omega),
      if_neg (show ¬ (12 ≤ h ∧ h ≤ 17) by omega)]
    rfl
  rcases p with _ | _
  · have hw := (periodOfHour_morning_iff h).mp hp
    simp only [if_pos hw, if_neg (show ¬ (12 ≤ h ∧ h ≤ 17) by omega)]
    rcases v1 with _ | x <;> rcases v2 with _ | y <;>
      simp [updateAL, pushSample, emptyHourlyBucket, Option.toList]
  · have hw := (periodOfHour_afternoon_iff h).mp hp
    simp only [if_neg (show ¬ (6 ≤ h ∧ h ≤ 11) by omega), if_pos hw]
    rcases v1 with _ | x <;> rcases v2 with _ | y <;>
      simp [updateAL, pushSample, emptyHourlyBucket, Option.toList]

/-- C1: in both hourly aggregators a sample whose time string matches the
prefix pattern is classified morning exactly for hours 6..11 and
afternoon exactly for hours 12..17 (boundary hours included; hours 0..5
and 18..99 feed neither window), a channel value is counted only when it
is a finite number (so a null value leaves the bucket empty and the
period average absent rather than 0), and a non-matching time string is
skipped without an error (the aggregator still succeeds). -/
theorem C1_bucket_classification :
    (∀ h : ℕ,
      (periodOfHour h = some DayPeriod.morning ↔ 6 ≤ h ∧ h ≤ 11) ∧
      (periodOfHour h = some DayPeriod.afternoon ↔ 12 ≤ h ∧ h ≤ 17) ∧
      (periodOfHour h = none ↔ h < 6 ∨ 18 ≤ h)) ∧
    (∀ (s : String) (v1 v2 : Option ℚ),
      aggregateAirQualityByDate ⟨some ⟨some [s], some [v1], some [v2]⟩⟩ =
        Except.ok (match parseTimeHour s with
          | none => []
          | some (d, h) =>
            [(d, { pm10 := ⟨if 6 ≤ h ∧ h ≤ 11 then v1 else none,
                     if 12 ≤ h ∧ h ≤ 17 then v1 else none⟩,
                   pm2_5 := ⟨if 6 ≤ h ∧ h ≤ 11 then v2 else none,
                     if 12 ≤ h ∧ h ≤ 17 then v2 else none⟩ })])) ∧
    (∀ (s : String) (v1 v2 : Option ℚ),
      aggregateWeatherPeriodsByDate ⟨none, some ⟨some [s], some [v1], some [v2]⟩⟩ =
        Except.ok (match parseTimeHour s with
          | none => []
          | some (d, h) =>
            [(d, { temperature := ⟨if 6 ≤ h ∧ h ≤ 11 then v1 else none,
                     if 12 ≤ h ∧ h ≤ 17 then v1 else none⟩,
                   weatherCode := ⟨if 6 ≤ h ∧ h ≤ 11 then v2 else none,
                     if 12 ≤ h ∧ h ≤ 17 then v2 else none⟩ })])) := by
  refine ⟨fun h => ⟨periodOfHour_morning_iff h, periodOfHour_afternoon_iff h,
    periodOfHour_none_iff h⟩, fun s v1 v2 => ?_, fun s v1 v2 => ?_⟩
  · simp only [aggregateAirQualityByDate]
    rw [if_pos ⟨rfl, rfl⟩]
    rw [show bucketLoop [s] [v1] [v2] [] = bucketStep [] s v1 v2 from rfl, bucketStep_nil]
    rcases parseTimeHour s with _ | ⟨d, h⟩
    · rfl
    · by_cases hm : 6 ≤ h ∧ h ≤ 11 <;> by_cases ha : 12 ≤ h ∧ h ≤ 17 <;>
        simp [hm, ha, average_toList, average_nil]
  · simp only [aggregateWeatherPeriodsByDate]
    rw [if_pos ⟨rfl, rfl⟩]
    rw [show bucketLoop [s] [v1] [v2] [] = bucketStep [] s v1 v2 from rfl, bucketStep_nil]
    rcases parseTimeHour s with _ | ⟨d, h⟩
    · rfl
    · by_cases hm : 6 ≤ h ∧ h ≤ 11 <;> by_cases ha : 12 ≤ h ∧ h ≤ 17 <;>
        simp [hm, ha, average_toList, average_nil, representativeWeatherCode_toList,
          representativeWeatherCode_nil]

/-! ## C2: closest weekend dates -/

/-- C2 counterexample: the claim as stated fails at the edges of the
four-digit year range.  For `"9999-12-31"` (which matches `YYYY-MM-DD`)
the returned Saturday is `"10000-01-01"`, which is not formatted as
`YYYY-MM-DD`; for `"0150-01-04"` the year is rendered unpadded as three
digits (`"150-01-10"`). -/
theorem C2_counterexample :
    matchesYmd "9999-12-31" = true ∧
    getClosestWeekendDates "9999-12-31" = Except.ok ⟨"10000-01-01", "10000-01-02"⟩ ∧
    matchesYmd "10000-01-01" = false ∧ matchesYmd "10000-01-02" = false ∧
    matchesYmd "0150-01-04" = true ∧
    getClosestWeekendDates "0150-01-04" = Except.ok ⟨"150-01-10", "150-01-11"⟩ ∧
    matchesYmd "150-01-10" = false := by
  refine ⟨by decide, by rfl, by decide, by decide, by decide, by rfl, by decide⟩

/-- C2 (amended): for every date string matching `YYYY-MM-DD` whose
JS-parsed day number (after `Date.UTC` month/day rollover and two-digit
year mapping) lies between 1000-01-01 and 9999-12-24,
`getClosestWeekendDates` succeeds with a `saturday` that is a Saturday
(`getUTCDay = 6`) on or after the parsed day — the same day (and, for a
canonically formatted input, the same string) when the input day is
itself a Saturday — and a `sunday` that is exactly `saturday` plus one
day, both formatted as (and parsing back under) the `YYYY-MM-DD`
pattern; in particular the three dates of the spec map as stated. -/
theorem C2_weekend_dates :
    (∀ (s : String) (z : ℤ), parseDateOnly s = Except.ok z →
      daysFromCivil 1000 1 1 ≤ z → z ≤ daysFromCivil 9999 12 24 →
      ∃ (r : WeekendDates) (zs : ℤ),
        getClosestWeekendDates s = Except.ok r ∧
        matchesYmd r.saturday = true ∧ matchesYmd r.sunday = true ∧
        parseDateOnly r.saturday = Except.ok zs ∧
        parseDateOnly r.sunday = Except.ok (zs + 1) ∧
        (zs + 4) % 7 = 6 ∧ z ≤ zs ∧ zs ≤ z + 6 ∧
        ((z + 4) % 7 = 6 → zs = z ∧
          (s = formatDateOnlyUtc z → r.saturday = s))) ∧
    getClosestWeekendDates "2026-02-23" = Except.ok ⟨"2026-02-28", "2026-03-01"⟩ ∧
    getClosestWeekendDates "2026-02-28" = Except.ok ⟨"2026-02-28", "2026-03-01"⟩ ∧
    getClosestWeekendDates "2026-03-01" = Except.ok ⟨"2026-03-07", "2026-03-08"⟩ := by
  refine ⟨?_, by rfl, by rfl, by rfl⟩
  intro s z hparse hlo hhi
  have hlo2 : -354285 ≤ z := by
    have h := hlo
    rw [show daysFromCivil 1000 1 1 = -354285 by decide] at h
    exact h
  have hhi2 : z ≤ 2932889 := by
    have h := hhi
    rw [show daysFromCivil 9999 12 24 = 2932889 by decide] at h
    exact h
  have hD1 : 0 ≤ (6 - (z + 4) % 7 + 7) % 7 := by omega
  have hD2 : (6 - (z + 4) % 7 + 7) % 7 ≤ 6 := by omega
  have hsat : (z + (6 - (z + 4) % 7 + 7) % 7 + 4) % 7 = 6 := by omega
  obtain ⟨hps, hms⟩ := parse_of_format (z + (6 - (z + 4) % 7 + 7) % 7)
    (by omega) (by omega)
  obtain ⟨hpu, hmu⟩ := parse_of_format (z + (6 - (z + 4) % 7 + 7) % 7 + 1)
    (by omega) (by omega)
  refine ⟨⟨formatDateOnlyUtc (z + (6 - (z + 4) % 7 + 7) % 7),
      formatDateOnlyUtc (z + (6 - (z + 4) % 7 + 7) % 7 + 1)⟩,
    z + (6 - (z + 4) % 7 + 7) % 7,
    ?_, hms, hmu, hps, hpu, hsat, by omega, by omega, ?_⟩
  · simp only [getClosestWeekendDates, hparse]
  · intro hzsat
    refine ⟨by omega, fun hss => ?_⟩
    show formatDateOnlyUtc (z + (6 - (z + 4) % 7 + 7) % 7) = s
    rw [show z + (6 - (z + 4) % 7 + 7) % 7 = z by omega, ← hss]

/-- C2 witness: the amended statement instantiated at the Monday
`"2026-02-23"` (parsed day number 20507). -/
theorem C2_witness :
    ∃ (r : WeekendDates) (zs : ℤ),
      getClosestWeekendDates "2026-02-23" = Except.ok r ∧
      matchesYmd r.saturday = true ∧ matchesYmd r.sunday = true ∧
      parseDateOnly r.saturday = Except.ok zs ∧
      parseDateOnly r.sunday = Except.ok (zs + 1) ∧
      (zs + 4) % 7 = 6 ∧ (20507 : ℤ) ≤ zs ∧ zs ≤ 20507 + 6 ∧
      (((20507 : ℤ) + 4) % 7 = 6 → zs = 20507 ∧
        ("2026-02-23" = formatDateOnlyUtc 20507 → r.saturday = "2026-02-23")) :=
  C2_weekend_dates.1 "2026-02-23" 20507 (by rfl) (by decide) (by decide)

/-! ## C10: date buckets are created before period classification -/

theorem lookupAL_append_single {α : Type} (l : List (String × α)) (d key : String) (v : α) :
    lookupAL (l ++ [(d, v)]) key =
      match lookupAL l key with
      | some x => some x
      | none => if d = key then some v else none := by
  induction l with
  | nil => simp [lookupAL]
  | cons hd tl ih =>
    obtain ⟨k, w⟩ := hd
    by_cases hk : k = key <;> simp [lookupAL, hk, ih]

theorem lookupAL_updateAL {α : Type} (l : List (String × α)) (k key : String) (f : α → α) :
    lookupAL (updateAL l k f) key =
      if k = key then (lookupAL l key).map f else lookupAL l key := by
  induction l with
  | nil => by_cases h : k = key <;> simp [lookupAL, updateAL, h]
  | cons hd tl ih =>
    obtain ⟨k2, w⟩ := hd
    by_cases h2 : k2 = k
    · subst h2
      by_cases h3 : k2 = key
      · subst h3
        simp [updateAL, lookupAL]
      · simp [updateAL, lookupAL, h3]
    · by_cases h3 : k2 = key
      · subst h3
        have h4 : ¬ k = k2 := fun h => h2 h.symm
        simp [updateAL, lookupAL, h2, h4, ih]
      · simp [updateAL, lookupAL, h2, h3, ih]

theorem lookupAL_map {α β : Type} (g : α → β) (l : List (String × α)) (key : String) :
    lookupAL (l.map (fun e => (e.1, g e.2))) key = (lookupAL l key).map g := by
  induction l with
  | nil => rfl
  | cons hd tl ih =>
    obtain ⟨k, w⟩ := hd
    by_cases h : k = key <;> simp [lookupAL, h, ih]

theorem bucketStep_lookup_isSome (bk : List (String × HourlyBucket)) (t : String)
    (x y : Option ℚ) (d : String) (h : lookupAL bk d ≠ none) :
    lookupAL (bucketStep bk t x y) d ≠ none := by
  rcases hpt : parseTimeHour t with _ | ⟨d2, h2⟩
  · simpa [bucketStep, hpt] using h
  simp only [bucketStep, hpt]
  rcases hlv : lookupAL bk d2 with _ | b <;>
    rcases hp : periodOfHour h2 with _ | p <;>
    rcases x with _ | xv <;> rcases y with _ | yv <;>
    simp [lookupAL_updateAL, lookupAL_append_single] <;>
    by_cases hd2 : d2 = d <;>
    simp_all [lookupAL_updateAL, lookupAL_append_single] <;>
    rcases hlv2 : lookupAL bk d with _ | bb <;> simp_all

theorem bucketStep_lookup_self (bk : List (String × HourlyBucket)) (t : String)
    (x y : Option ℚ) (d : String) (h2 : ℕ) (hpt : parseTimeHour t = some (d, h2)) :
    lookupAL (bucketStep bk t x y) d ≠ none := by
  simp only [bucketStep, hpt]
  rcases hlv : lookupAL bk d with _ | b <;>
    rcases hp : periodOfHour h2 with _ | p <;>
    rcases x with _ | xv <;> rcases y with _ | yv <;>
    simp_all [lookupAL_updateAL, lookupAL_append_single]

theorem bucketLoop_lookup_isSome :
    ∀ (ts : List String) (xs ys : List (Option ℚ)) (bk : List (String × HourlyBucket))
      (d : String), lookupAL bk d ≠ none →
      lookupAL (bucketLoop ts xs ys bk) d ≠ none := by
  intro ts
  induction ts with
  | nil => intro xs ys bk d h; simpa [bucketLoop] using h
  | cons t ts ih =>
    intro xs ys bk d h
    rcases xs with _ | ⟨x, xs⟩
    · simpa [bucketLoop] using h
    rcases ys with _ | ⟨y, ys⟩
    · simpa [bucketLoop] using h
    exact ih xs ys _ d (bucketStep_lookup_isSome bk t x y d h)

theorem bucketLoop_mem_lookup :
    ∀ (ts : List String) (xs ys : List (Option ℚ)) (bk : List (String × HourlyBucket))
      (s d : String) (h : ℕ),
      ts.length = xs.length → ts.length = ys.length → s ∈ ts →
      parseTimeHour s = some (d, h) →
      lookupAL (bucketLoop ts xs ys bk) d ≠ none := by
  intro ts
  induction ts with
  | nil => intro xs ys bk s d h _ _ hmem; simp at hmem
  | cons t ts ih =>
    intro xs ys bk s d h hl1 hl2 hmem hpt
    rcases xs with _ | ⟨x, xs⟩
    · simp at hl1
    rcases ys with _ | ⟨y, ys⟩
    · simp at hl2
    rcases List.mem_cons.mp hmem with heq | hmem2
    · subst heq
      exact bucketLoop_lookup_isSome ts xs ys _ d
        (bucketStep_lookup_self bk s x y d h hpt)
    · exact ih xs ys _ s d h (by simpa using hl1) (by simpa using hl2) hmem2 hpt

/-- The bucket of a date all of whose parsed hours fall outside both
windows stays empty (or absent) through the loop. -/
theorem bucketStep_outwindow (bk : List (String × HourlyBucket)) (t : String)
    (x y : Option ℚ) (d : String)
    (hout : ∀ h2, parseTimeHour t = some (d, h2) → periodOfHour h2 = none)
    (hinv : lookupAL bk d = none ∨ lookupAL bk d = some emptyHourlyBucket) :
    lookupAL (bucketStep bk t x y) d = none ∨
      lookupAL (bucketStep bk t x y) d = some emptyHourlyBucket := by
  rcases hpt : parseTimeHour t with _ | ⟨d2, h2⟩
  · simpa [bucketStep, hpt] using hinv
  simp only [bucketStep, hpt]
  by_cases hd2 : d2 = d
  · subst hd2
    have hp : periodOfHour h2 = none := hout h2 hpt
    rcases hinv with hnone | hempty
    · simp [hnone, hp, lookupAL_append_single]
    · simp [hempty, hp]
  · rcases hlv : lookupAL bk d2 with _ | b <;>
      rcases hp : periodOfHour h2 with _ | p <;>
      rcases x with _ | xv <;> rcases y with _ | yv <;>
      simp_all [lookupAL_updateAL, lookupAL_append_single, hd2] <;>
      rcases hinv with hnone | hempty <;> simp_all

theorem bucketLoop_outwindow :
    ∀ (ts : List String) (xs ys : List (Option ℚ)) (bk : List (String × HourlyBucket))
      (d : String),
      (∀ s ∈ ts, ∀ h2, parseTimeHour s = some (d, h2) → periodOfHour h2 = none) →
      (lookupAL bk d = none ∨ lookupAL bk d = some emptyHourlyBucket) →
      lookupAL (bucketLoop ts xs ys bk) d = none ∨
        lookupAL (bucketLoop ts xs ys bk) d = some emptyHourlyBucket := by
  intro ts
  induction ts with
  | nil => intro xs ys bk d _ hinv; simpa [bucketLoop] using hinv
  | cons t ts ih =>
    intro xs ys bk d hout hinv
    rcases xs with _ | ⟨x, xs⟩
    · simpa [bucketLoop] using hinv
    rcases ys with _ | ⟨y, ys⟩
    · simpa [bucketLoop] using hinv
    exact ih xs ys _ d (fun s hs => hout s (List.mem_cons_of_mem t hs))
      (bucketStep_outwindow bk t x y d (fun h2 => hout t (List.mem_cons_self t ts) h2) hinv)

theorem lookupAL_mapAir (l : List (String × HourlyBucket)) (key : String) :
    lookupAL (l.map (fun entry => (entry.1,
      ({ pm10 := ⟨average entry.2.chan1.morning, average entry.2.chan1.afternoon⟩,
         pm2_5 := ⟨average entry.2.chan2.morning, average entry.2.chan2.afternoon⟩ } :
        AirDaySummary)))) key =
    (lookupAL l key).map (fun b =>
      ({ pm10 := ⟨average b.chan1.morning, average b.chan1.afternoon⟩,
         pm2_5 := ⟨average b.chan2.morning, average b.chan2.afternoon⟩ } : AirDaySummary)) := by
  induction l with
  | nil => rfl
  | cons hd tl ih =>
    obtain ⟨k, w⟩ := hd
    by_cases h : k = key <;> simp [lookupAL, h, ih]

theorem lookupAL_mapWeather (l : List (String × HourlyBucket)) (key : String) :
    lookupAL (l.map (fun entry => (entry.1,
      ({ temperature := ⟨average entry.2.chan1.morning, average entry.2.chan1.afternoon⟩,
         weatherCode := ⟨representativeWeatherCode entry.2.chan2.morning,
           representativeWeatherCode entry.2.chan2.afternoon⟩ } :
        WeatherDayPeriodSummary)))) key =
    (lookupAL l key).map (fun b =>
      ({ temperature := ⟨average b.chan1.morning, average b.chan1.afternoon⟩,
         weatherCode := ⟨representativeWeatherCode b.chan2.morning,
           representativeWeatherCode b.chan2.afternoon⟩ } : WeatherDayPeriodSummary)) := by
  induction l with
  | nil => rfl
  | cons hd tl ih =>
    obtain ⟨k, w⟩ := hd
    by_cases h : k = key <;> simp [lookupAL, h, ih]

/-- C10: in both hourly aggregators, every date appearing in at least one
well-formed time string gets an entry in the output map, because the date
bucket is created before the period classification; when all of that
date's parsed hours fall outside both windows, the date still maps to the
all-absent summary rather than being omitted. -/
theorem C10_dates_always_present :
    (∀ (time : List String) (pm10 pm2_5 : List (Option ℚ))
      (m : List (String × AirDaySummary)),
      aggregateAirQualityByDate ⟨some ⟨some time, some pm10, some pm2_5⟩⟩ = Except.ok m →
      ∀ s ∈ time, ∀ (d : String) (h : ℕ), parseTimeHour s = some (d, h) →
        (∃ summ, lookupAL m d = some summ) ∧
        ((∀ s2 ∈ time, ∀ h2 : ℕ, parseTimeHour s2 = some (d, h2) → periodOfHour h2 = none) →
          lookupAL m d = some emptyAirDaySummary)) ∧
    (∀ (time : List String) (temps codes : List (Option ℚ))
      (m : List (String × WeatherDayPeriodSummary)),
      aggregateWeatherPeriodsByDate ⟨none, some ⟨some time, some temps, some codes⟩⟩ =
        Except.ok m →
      ∀ s ∈ time, ∀ (d : String) (h : ℕ), parseTimeHour s = some (d, h) →
        (∃ summ, lookupAL m d = some summ) ∧
        ((∀ s2 ∈ time, ∀ h2 : ℕ, parseTimeHour s2 = some (d, h2) → periodOfHour h2 = none) →
          lookupAL m d = some emptyWeatherDayPeriodSummary)) := by
  constructor
  · intro time pm10 pm2_5 m hok s hs d h hpt
    by_cases hlen : time.length = pm10.length ∧ time.length = pm2_5.length
    · simp only [aggregateAirQualityByDate, if_pos hlen, Except.ok.injEq] at hok
      subst hok
      have hne := bucketLoop_mem_lookup time pm10 pm2_5 [] s d h hlen.1 hlen.2 hs hpt
      rw [lookupAL_mapAir]
      rcases hlb : lookupAL (bucketLoop time pm10 pm2_5 []) d with _ | b
      · exact (hne hlb).elim
      refine ⟨⟨_, rfl⟩, fun hout => ?_⟩
      have hempty := bucketLoop_outwindow time pm10 pm2_5 [] d hout (Or.inl rfl)
      rcases hempty with hnone | hsome
      · exact (hne hnone).elim
      · rw [hlb] at hsome
        rw [Option.some.inj hsome]
        rfl
    · simp [aggregateAirQualityByDate, hlen] at hok
  · intro time temps codes m hok s hs d h hpt
    by_cases hlen : time.length = temps.length ∧ time.length = codes.length
    · simp only [aggregateWeatherPeriodsByDate, if_pos hlen, Except.ok.injEq] at hok
      subst hok
      have hne := bucketLoop_mem_lookup time temps codes [] s d h hlen.1 hlen.2 hs hpt
      rw [lookupAL_mapWeather]
      rcases hlb : lookupAL (bucketLoop time temps codes []) d with _ | b
      · exact (hne hlb).elim
      refine ⟨⟨_, rfl⟩, fun hout => ?_⟩
      have hempty := bucketLoop_outwindow time temps codes [] d hout (Or.inl rfl)
      rcases hempty with hnone | hsome
      · exact (hne hnone).elim
      · rw [hlb] at hsome
        rw [Option.some.inj hsome]
        rfl
    · simp [aggregateWeatherPeriodsByDate, hlen] at hok

/-- C10 witness: a single sample at the out-of-window hour 20 still
creates its date's entry, mapped to the all-absent summary. -/
theorem C10_witness :
    lookupAL [("2026-02-26", emptyAirDaySummary)] "2026-02-26" =
      some emptyAirDaySummary := by
  have h := (C10_dates_always_present.1 ["2026-02-26T20:00"] [none] [none]
    [("2026-02-26", emptyAirDaySummary)] rfl "2026-02-26T20:00" (by simp)
    "2026-02-26" 20 (by decide)).2
  refine h ?_
  intro s2 hs2 h2 hp2
  have hs2eq : s2 = "2026-02-26T20:00" := by simpa using hs2
  subst hs2eq
  rw [show parseTimeHour "2026-02-26T20:00" = some ("2026-02-26", 20) from by decide] at hp2
  have hh2 : h2 = 20 := by
    have := Option.some.inj hp2
    simpa using this.symm
  subst hh2
  decide

/-! ## C4: representative weather code selection -/

/-- Number of occurrences of `v` in a list. -/
def countv : List ℚ → ℚ → ℕ
  | [], _ => 0
  | x :: xs, v => (if x = v then 1 else 0) + countv xs v

/-- Index of the first occurrence of `v` (the list length when absent). -/
def firstIdx : List ℚ → ℚ → ℕ
  | [], _ => 0
  | x :: xs, v => if x = v then 0 else firstIdx xs v + 1

/-- Lookup in the `counts` association list of `representativeWeatherCode`. -/
def countsLookup : List (ℚ × ℕ × ℕ) → ℚ → Option (ℕ × ℕ)
  | [], _ => none
  | (u, c, f) :: rest, v => if u = v then some (c, f) else countsLookup rest v

theorem countv_append (p q : List ℚ) (v : ℚ) :
    countv (p ++ q) v = countv p v + countv q v := by
  induction p with
  | nil => simp [countv]
  | cons x xs ih => simp [countv, ih]; omega

theorem countv_pos_of_mem (l : List ℚ) (v : ℚ) (h : v ∈ l) : 1 ≤ countv l v := by
  induction l with
  | nil => simp at h
  | cons x xs ih =>
    rcases List.mem_cons.mp h with rfl | h2
    · simp [countv]
    · have := ih h2
      simp only [countv]
      omega

theorem firstIdx_append_of_mem (p q : List ℚ) (v : ℚ) (h : v ∈ p) :
    firstIdx (p ++ q) v = firstIdx p v := by
  induction p with
  | nil => simp at h
  | cons x xs ih =>
    by_cases hx : x = v
    · simp [firstIdx, hx]
    · rcases List.mem_cons.mp h with rfl | h2
      · exact (hx rfl).elim
      · simp [firstIdx, hx, ih h2]

theorem firstIdx_append_of_not_mem (p q : List ℚ) (v : ℚ) (h : v ∉ p) :
    firstIdx (p ++ q) v = p.length + firstIdx q v := by
  induction p with
  | nil => simp [firstIdx]
  | cons x xs ih =>
    have hx : ¬ (x = v) := fun hh => h (hh ▸ List.mem_cons_self x xs)
    have h2 : v ∉ xs := fun hh => h (List.mem_cons_of_mem x hh)
    simp [firstIdx, hx, ih h2]
    omega

theorem countv_not_mem (l : List ℚ) (v : ℚ) (h : v ∉ l) : countv l v = 0 := by
  induction l with
  | nil => rfl
  | cons x xs ih =>
    have hx : ¬ (x = v) := fun hh => h (hh ▸ List.mem_cons_self x xs)
    have h2 : v ∉ xs := fun hh => h (List.mem_cons_of_mem x hh)
    simp [countv, hx, ih h2]

theorem bumpCount_lookup (acc : List (ℚ × ℕ × ℕ)) (x : ℚ) (i : ℕ) (v : ℚ) :
    countsLookup (bumpCount acc x i) v =
      if v = x then
        (match countsLookup acc x with
          | some (c, f) => some (c + 1, f)
          | none => some (1, i))
      else countsLookup acc v := by
  induction acc with
  | nil =>
    by_cases hv : v = x
    · subst hv
      simp [bumpCount, countsLookup]
    · have hxv : ¬ (x = v) := fun h => hv h.symm
      simp [bumpCount, countsLookup, hv, hxv]
  | cons e rest ih =>
    obtain ⟨u, c, f⟩ := e
    by_cases hux : u = x
    · subst hux
      by_cases hv : v = u
      · subst hv
        simp [bumpCount, countsLookup]
      · have huv : ¬ (u = v) := fun h => hv h.symm
        simp [bumpCount, countsLookup, hv, huv]
    · by_cases hv : u = v
      · subst hv
        have hvx : ¬ (u = x) := hux
        simp [bumpCount, countsLookup, hux, hvx]
      · simp [bumpCount, countsLookup, hux, hv, ih]

theorem countsLookup_none_iff (acc : List (ℚ × ℕ × ℕ)) (v : ℚ) :
    countsLookup acc v = none ↔ v ∉ acc.map (fun e => e.1) := by
  induction acc with
  | nil => simp [countsLookup]
  | cons e rest ih =>
    obtain ⟨u, c, f⟩ := e
    by_cases hu : u = v
    · subst hu
      simp [countsLookup]
    · have hv : ¬ (v = u) := fun h => hu h.symm
      simp [countsLookup, hu, hv, ih]

theorem bumpCount_keys (acc : List (ℚ × ℕ × ℕ)) (x : ℚ) (i : ℕ) :
    (bumpCount acc x i).map (fun e => e.1) =
      if countsLookup acc x = none then acc.map (fun e => e.1) ++ [x]
      else acc.map (fun e => e.1) := by
  induction acc with
  | nil => simp [bumpCount, countsLookup]
  | cons e rest ih =>
    obtain ⟨u, c, f⟩ := e
    by_cases hu : u = x <;> simp [bumpCount, countsLookup, hu, ih]
    split <;> simp

theorem mem_of_countsLookup (acc : List (ℚ × ℕ × ℕ)) (v : ℚ) (c f : ℕ)
    (h : countsLookup acc v = some (c, f)) : (v, c, f) ∈ acc := by
  induction acc with
  | nil => simp [countsLookup] at h
  | cons e rest ih =>
    obtain ⟨u, c2, f2⟩ := e
    by_cases hu : u = v
    · subst hu
      simp [countsLookup] at h
      obtain ⟨rfl, rfl⟩ := h
      exact List.mem_cons_self _ _
    · simp only [countsLookup, if_neg hu] at h
      exact List.mem_cons_of_mem _ (ih h)

theorem countsLookup_of_mem (acc : List (ℚ × ℕ × ℕ)) (v : ℚ) (c f : ℕ)
    (hmem : (v, c, f) ∈ acc) (hnd : (acc.map (fun e => e.1)).Nodup) :
    countsLookup acc v = some (c, f) := by
  induction acc with
  | nil => simp at hmem
  | cons e rest ih =>
    obtain ⟨u, c2, f2⟩ := e
    simp only [List.map_cons, List.nodup_cons] at hnd
    rcases List.mem_cons.mp hmem with heq | h2
    · obtain ⟨h1, h2, h3⟩ : v = u ∧ c = c2 ∧ f = f2 := by
        simpa [Prod.ext_iff] using heq
      subst h1
      subst h2
      subst h3
      simp [countsLookup]
    · have hu : ¬ (u = v) := by
        intro hu
        subst hu
        exact hnd.1 (by simpa using List.mem_map_of_mem (fun e => e.1) h2)
      simp [countsLookup, hu, ih h2 hnd.2]

theorem buildCounts_spec :
    ∀ (l p : List ℚ) (acc : List (ℚ × ℕ × ℕ)),
      (∀ v, countsLookup acc v =
        if v ∈ p then some (countv p v, firstIdx p v) else none) →
      ((acc.map (fun e => e.1)).Nodup) →
      (∀ v, countsLookup (buildCounts l p.length acc) v =
        if v ∈ p ++ l then some (countv (p ++ l) v, firstIdx (p ++ l) v) else none) ∧
      ((buildCounts l p.length acc).map (fun e => e.1)).Nodup := by
  intro l
  induction l with
  | nil =>
    intro p acc hinv hnd
    constructor
    · intro v
      simpa [buildCounts] using hinv v
    · simpa [buildCounts] using hnd
  | cons x xs ih =>
    intro p acc hinv hnd
    have hstep : buildCounts (x :: xs) p.length acc
        = buildCounts xs (p.length + 1) (bumpCount acc x p.length) := rfl
    have hlen : (p ++ [x]).length = p.length + 1 := by simp
    have hinv2 : ∀ v, countsLookup (bumpCount acc x p.length) v =
        if v ∈ p ++ [x] then some (countv (p ++ [x]) v, firstIdx (p ++ [x]) v)
        else none := by
      intro v
      rw [bumpCount_lookup]
      by_cases hvx : v = x
      · subst hvx
        rw [if_pos rfl]
        by_cases hvp : v ∈ p
        · rw [hinv v, if_pos hvp, if_pos (by simp), countv_append,
            firstIdx_append_of_mem p [v] v hvp]
          simp [countv]
        · rw [hinv v, if_neg hvp, if_pos (by simp), countv_append,
            countv_not_mem p v hvp, firstIdx_append_of_not_mem p [v] v hvp]
          simp [countv, firstIdx]
      · rw [if_neg hvx, hinv v]
        by_cases hvp : v ∈ p
        · rw [if_pos hvp, if_pos (by simp [hvp]), countv_append,
            firstIdx_append_of_mem p [x] v hvp]
          have hxv : ¬ (x = v) := fun h => hvx h.symm
          have hcx : countv [x] v = 0 := by simp [countv, hxv]
          rw [hcx]
          simp
        · rw [if_neg hvp, if_neg (by simp [hvp, hvx])]
    have hnd2 : ((bumpCount acc x p.length).map (fun e => e.1)).Nodup := by
      rw [bumpCount_keys]
      by_cases hl : countsLookup acc x = none
      · rw [if_pos hl]
        have hx : x ∉ acc.map (fun e => e.1) := (countsLookup_none_iff acc x).mp hl
        simp [List.nodup_append, hnd, hx]
      · rw [if_neg hl]
        exact hnd
    obtain ⟨ha, hb⟩ := ih (p ++ [x]) (bumpCount acc x p.length) hinv2 hnd2
    rw [hlen] at ha hb
    have hap : (p ++ [x]) ++ xs = p ++ x :: xs := by simp
    rw [hap] at ha
    rw [hstep]
    exact ⟨ha, hb⟩

theorem buildCounts_master (values : List ℚ) :
    (∀ v, countsLookup (buildCounts values 0 []) v =
      if v ∈ values then some (countv values v, firstIdx values v) else none) ∧
    ((buildCounts values 0 []).map (fun e => e.1)).Nodup := by
  have h := buildCounts_spec values [] [] (fun v => by simp [countsLookup]) (by simp)
  simpa using h

/-- The scan keeps a best triple at least as good (more occurrences, or
equally many with an earlier first index) as the given one. -/
def betterKey (a b : ℤ × ℕ) : Prop := b.1 < a.1 ∨ (a.1 = b.1 ∧ a.2 ≤ b.2)

theorem scanBest_cases :
    ∀ (acc : List (ℚ × ℕ × ℕ)) (b : ℚ × ℤ × ℕ),
      scanBest acc b = b ∨ ∃ e ∈ acc, scanBest acc b = (e.1, (e.2.1 : ℤ), e.2.2) := by
  intro acc
  induction acc with
  | nil =>
    intro b
    left
    rfl
  | cons e rest ih =>
    intro b
    obtain ⟨v, c, f⟩ := e
    by_cases hb : (c : ℤ) > b.2.1 ∨ ((c : ℤ) = b.2.1 ∧ f < b.2.2)
    · rw [show scanBest ((v, c, f) :: rest) b = scanBest rest (v, (c : ℤ), f) from by
        simp [scanBest, hb]]
      rcases ih (v, (c : ℤ), f) with h1 | ⟨e2, he2, heq⟩
      · right
        exact ⟨(v, c, f), List.mem_cons_self _ _, h1⟩
      · right
        exact ⟨e2, List.mem_cons_of_mem _ he2, heq⟩
    · rw [show scanBest ((v, c, f) :: rest) b = scanBest rest b from by simp [scanBest, hb]]
      rcases ih b with h1 | ⟨e2, he2, heq⟩
      · left
        exact h1
      · right
        exact ⟨e2, List.mem_cons_of_mem _ he2, heq⟩

theorem scanBest_better :
    ∀ (acc : List (ℚ × ℕ × ℕ)) (b : ℚ × ℤ × ℕ),
      betterKey (scanBest acc b).2 b.2 ∧
      ∀ e ∈ acc, betterKey (scanBest acc b).2 ((e.2.1 : ℤ), e.2.2) := by
  intro acc
  induction acc with
  | nil =>
    intro b
    exact ⟨Or.inr ⟨rfl, le_refl _⟩, by simp⟩
  | cons e rest ih =>
    intro b
    obtain ⟨v, c, f⟩ := e
    by_cases hb : (c : ℤ) > b.2.1 ∨ ((c : ℤ) = b.2.1 ∧ f < b.2.2)
    · rw [show scanBest ((v, c, f) :: rest) b = scanBest rest (v, (c : ℤ), f) from by
        simp [scanBest, hb]]
      obtain ⟨h1, h2⟩ := ih (v, (c : ℤ), f)
      constructor
      · simp only [betterKey] at h1 ⊢
        omega
      · intro e2 he2
        rcases List.mem_cons.mp he2 with heq | hmem
        · subst heq
          exact h1
        · exact h2 e2 hmem
    · rw [show scanBest ((v, c, f) :: rest) b = scanBest rest b from by simp [scanBest, hb]]
      obtain ⟨h1, h2⟩ := ih b
      refine ⟨h1, fun e2 he2 => ?_⟩
      rcases List.mem_cons.mp he2 with heq | hmem
      · subst heq
        push_neg at hb
        simp only [betterKey] at h1 ⊢
        omega
      · exact h2 e2 hmem

/-- C4: for every non-empty list of weather-code samples in time order,
`representativeWeatherCode` returns a value of the list with the highest
occurrence count, and among equally frequent values the one whose first
occurrence index is smallest; in particular the tied samples
`[0, 1, 3, 61]` resolve to `0` and the tied window `[3, 61]` resolves to
`3`. -/
theorem C4_representative_selection :
    (∀ values : List ℚ, values ≠ [] →
      ∃ v, representativeWeatherCode values = some v ∧ v ∈ values ∧
        (∀ u ∈ values, countv values u ≤ countv values v) ∧
        (∀ u ∈ values, countv values u = countv values v →
          firstIdx values v ≤ firstIdx values u)) ∧
    representativeWeatherCode [0, 1, 3, 61] = some 0 ∧
    representativeWeatherCode [3, 61] = some 3 := by
  refine ⟨?_, ?_, ?_⟩
  · intro values hne
    obtain ⟨v0, rest, rfl⟩ : ∃ v0 rest, values = v0 :: rest := by
      rcases values with _ | ⟨v0, rest⟩
      · exact (hne rfl).elim
      · exact ⟨v0, rest, rfl⟩
    obtain ⟨hlook, hnd⟩ := buildCounts_master (v0 :: rest)
    have hrep : representativeWeatherCode (v0 :: rest) =
        some (scanBest (buildCounts (v0 :: rest) 0 []) (v0, -1, 9007199254740991)).1 := rfl
    set counts := buildCounts (v0 :: rest) 0 [] with hc
    obtain ⟨hbet0, hbetall⟩ := scanBest_better counts (v0, -1, 9007199254740991)
    rcases scanBest_cases counts (v0, -1, 9007199254740991) with hinit | ⟨e, he, heq⟩
    · exfalso
      have hv0 : countsLookup counts v0 =
          some (countv (v0 :: rest) v0, firstIdx (v0 :: rest) v0) := by
        rw [hlook v0, if_pos (List.mem_cons_self v0 rest)]
      have hmem := mem_of_countsLookup counts v0 _ _ hv0
      have hbt := hbetall _ hmem
      rw [hinit] at hbt
      have hcpos : 1 ≤ countv (v0 :: rest) v0 :=
        countv_pos_of_mem _ _ (List.mem_cons_self v0 rest)
      simp only [betterKey] at hbt
      omega
    · obtain ⟨w, cw, fw⟩ := e
      have helook : countsLookup counts w = some (cw, fw) :=
        countsLookup_of_mem counts w cw fw he hnd
      have h1 := hlook w
      rw [helook] at h1
      by_cases hm : w ∈ v0 :: rest
      case neg =>
        rw [if_neg hm] at h1
        exact absurd h1 (by simp)
      rw [if_pos hm] at h1
      obtain ⟨hcw, hfw⟩ : cw = countv (v0 :: rest) w ∧ fw = firstIdx (v0 :: rest) w := by
        simpa [Prod.ext_iff] using Option.some.inj h1
      refine ⟨w, ?_, hm, ?_, ?_⟩
      · rw [hrep, heq]
      · intro u hu
        have huL : countsLookup counts u =
            some (countv (v0 :: rest) u, firstIdx (v0 :: rest) u) := by
          rw [hlook u, if_pos hu]
        have humem := mem_of_countsLookup counts u _ _ huL
        have hb := hbetall _ humem
        rw [heq] at hb
        simp only [betterKey] at hb
        rw [hcw] at hb
        omega
      · intro u hu hcnt
        have huL : countsLookup counts u =
            some (countv (v0 :: rest) u, firstIdx (v0 :: rest) u) := by
          rw [hlook u, if_pos hu]
        have humem := mem_of_countsLookup counts u _ _ huL
        have hb := hbetall _ humem
        rw [heq] at hb
        simp only [betterKey] at hb
        rw [hcw, hfw] at hb
        omega
  · norm_num [representativeWeatherCode, buildCounts, bumpCount, scanBest]
  · norm_num [representativeWeatherCode, buildCounts, bumpCount, scanBest]

/-- C4 witness: the tie-break characterization evaluated at the concrete
tied list `[3, 61]`. -/
theorem C4_witness :
    ∃ v, representativeWeatherCode [3, 61] = some v ∧ v ∈ ([3, 61] : List ℚ) ∧
      (∀ u ∈ ([3, 61] : List ℚ), countv [3, 61] u ≤ countv [3, 61] v) ∧
      (∀ u ∈ ([3, 61] : List ℚ), countv [3, 61] u = countv [3, 61] v →
        firstIdx [3, 61] v ≤ firstIdx [3, 61] u) :=
  C4_representative_selection.1 [3, 61] (by simp)
